import Mathlib

/-!
Verification development for the component registry patcher of the
mcp-server-generator repository (src/utils/registry-updater.ts,
src/utils/project-detector.ts, src/cli/add-component.ts, src/cli/index.ts).

File contents are modelled as lists of characters; paths as lists of
characters; the file system as an association list from paths to file data.
The JavaScript string primitives used by the source (indexOf, lastIndexOf,
includes, slice-based splicing, trimEnd, and the two concrete regular
expressions of registry-updater.ts) are given executable models below, and
the registry-patching functions are translated line by line on top of them.
-/

set_option maxRecDepth 10000
set_option synthInstance.maxHeartbeats 400000
set_option maxHeartbeats 1000000

/-- Whitespace test for the JavaScript regex class \s restricted to the
characters that occur in the patched source files (ASCII whitespace and
no-break space). -/
def isWs (c : Char) : Bool :=
  c = ' ' || c = '\t' || c = '\n' || c = '\r' || c = '\x0b' || c = '\x0c' || c = ' '

/-- Boolean prefix test on character lists; model of comparing a pattern
against the start of a JavaScript string. -/
def isPrefOf : List Char → List Char → Bool
  | [], _ => true
  | _ :: _, [] => false
  | a :: as, b :: bs => a = b && isPrefOf as bs

theorem isPrefOf_iff {p s : List Char} : isPrefOf p s = true ↔ ∃ t, s = p ++ t := by
  induction p generalizing s with
  | nil => simp [isPrefOf]
  | cons a as ih =>
    cases s with
    | nil => simp [isPrefOf]
    | cons b bs =>
      simp only [isPrefOf, Bool.and_eq_true, decide_eq_true_eq, List.cons_append,
        List.cons.injEq, ih]
      constructor
      · rintro ⟨rfl, t, rfl⟩; exact ⟨t, rfl, rfl⟩
      · rintro ⟨t, rfl, rfl⟩; exact ⟨rfl, t, rfl⟩

/-- Occurrence of pattern p at index n of s. -/
def occB (p s : List Char) (n : Nat) : Bool := isPrefOf p (s.drop n)

theorem occB_iff {p s : List Char} {n : Nat} :
    occB p s n = true ↔ ∃ t, s.drop n = p ++ t := by
  simp [occB, isPrefOf_iff]

/-- Index of the first occurrence of p in s; model of String.prototype.indexOf. -/
def subFind (p : List Char) : List Char → Option Nat
  | [] => if p.isEmpty then some 0 else none
  | c :: rest => if isPrefOf p (c :: rest) then some 0 else (subFind p rest).map (· + 1)

/-- Index of the last occurrence of p in s; model of String.prototype.lastIndexOf. -/
def subFindLast (p : List Char) : List Char → Option Nat
  | [] => if p.isEmpty then some 0 else none
  | c :: rest =>
    match subFindLast p rest with
    | some j => some (j + 1)
    | none => if isPrefOf p (c :: rest) then some 0 else none

/-- Substring containment; model of String.prototype.includes. -/
def containsSub (p s : List Char) : Bool := (subFind p s).isSome

theorem occB_nil {p : List Char} {n : Nat} :
    occB p [] n = true ↔ p = [] := by
  cases p <;> simp [occB, isPrefOf]

theorem subFind_some_occ {p s : List Char} {n : Nat}
    (h : subFind p s = some n) : occB p s n = true := by
  induction s generalizing n with
  | nil =>
    simp only [subFind] at h
    cases p with
    | nil => simp only [List.isEmpty_nil, if_true, Option.some.injEq] at h; simp [occB, isPrefOf]
    | cons a as => simp [List.isEmpty_cons] at h
  | cons c rest ih =>
    simp only [subFind] at h
    by_cases hp : isPrefOf p (c :: rest) = true
    · rw [if_pos hp] at h
      cases h
      simpa [occB] using hp
    · rw [if_neg hp] at h
      rcases Option.map_eq_some'.mp h with ⟨j, hj, rfl⟩
      have := ih hj
      simpa [occB] using this

theorem subFind_min {p s : List Char} {n : Nat}
    (h : subFind p s = some n) : ∀ m, m < n → occB p s m = false := by
  induction s generalizing n with
  | nil =>
    intro m hm
    simp only [subFind] at h
    cases p with
    | nil => simp only [List.isEmpty_nil, if_true, Option.some.injEq] at h; omega
    | cons a as => simp [List.isEmpty_cons] at h
  | cons c rest ih =>
    intro m hm
    simp only [subFind] at h
    by_cases hp : isPrefOf p (c :: rest) = true
    · rw [if_pos hp] at h; cases h; omega
    · rw [if_neg hp] at h
      rcases Option.map_eq_some'.mp h with ⟨j, hj, rfl⟩
      cases m with
      | zero => simpa [occB] using hp
      | succ m' =>
        have := ih hj m' (by omega)
        simpa [occB] using this

theorem subFind_none {p s : List Char}
    (h : subFind p s = none) : ∀ n, occB p s n = false := by
  induction s with
  | nil =>
    intro n
    simp only [subFind] at h
    cases p with
    | nil => simp at h
    | cons a as => simp [occB, isPrefOf]
  | cons c rest ih =>
    intro n
    simp only [subFind] at h
    by_cases hp : isPrefOf p (c :: rest) = true
    · rw [if_pos hp] at h; cases h
    · rw [if_neg hp] at h
      have hrest : subFind p rest = none := by
        cases hh : subFind p rest with
        | none => rfl
        | some j => rw [hh] at h; simp at h
      cases n with
      | zero => simpa [occB] using hp
      | succ n' => have := ih hrest n'; simpa [occB] using this

theorem subFind_complete {p s : List Char} {n : Nat}
    (h : occB p s n = true) : (subFind p s).isSome = true := by
  cases hh : subFind p s with
  | none => have := subFind_none hh n; rw [this] at h; cases h
  | some j => rfl

theorem containsSub_of_occ {p s : List Char} {n : Nat}
    (h : occB p s n = true) : containsSub p s = true := by
  simpa [containsSub] using subFind_complete h

theorem containsSub_none_occ {p s : List Char}
    (h : containsSub p s = false) : ∀ n, occB p s n = false := by
  intro n
  cases hh : subFind p s with
  | none => exact subFind_none hh n
  | some j => simp [containsSub, hh] at h

theorem subFindLast_some_occ {p s : List Char} {n : Nat}
    (h : subFindLast p s = some n) : occB p s n = true := by
  induction s generalizing n with
  | nil =>
    simp only [subFindLast] at h
    cases p with
    | nil => simp only [List.isEmpty_nil, if_true, Option.some.injEq] at h; simp [occB, isPrefOf]
    | cons a as => simp [List.isEmpty_cons] at h
  | cons c rest ih =>
    simp only [subFindLast] at h
    cases hr : subFindLast p rest with
    | some j =>
      rw [hr] at h
      cases h
      have := ih hr
      simpa [occB] using this
    | none =>
      rw [hr] at h
      by_cases hp : isPrefOf p (c :: rest) = true
      · rw [if_pos hp] at h; cases h; simpa [occB] using hp
      · rw [if_neg hp] at h; cases h

theorem subFindLast_none_occ {p s : List Char}
    (h : subFindLast p s = none) : ∀ n, occB p s n = false := by
  induction s with
  | nil =>
    intro n
    simp only [subFindLast] at h
    cases p with
    | nil => simp at h
    | cons a as => simp [occB, isPrefOf]
  | cons c rest ih =>
    intro n
    simp only [subFindLast] at h
    cases hr : subFindLast p rest with
    | some j => rw [hr] at h; cases h
    | none =>
      rw [hr] at h
      by_cases hp : isPrefOf p (c :: rest) = true
      · rw [if_pos hp] at h; cases h
      · rw [if_neg hp] at h
        cases n with
        | zero => simpa [occB] using hp
        | succ n' => have := ih hr n'; simpa [occB] using this

theorem subFindLast_max {p s : List Char} {n : Nat} (hp0 : p ≠ [])
    (h : subFindLast p s = some n) : ∀ m, n < m → occB p s m = false := by
  induction s generalizing n with
  | nil =>
    intro m hm
    simp only [subFindLast] at h
    cases p with
    | nil => exact absurd rfl hp0
    | cons a as => simp [List.isEmpty_cons] at h
  | cons c rest ih =>
    intro m hm
    simp only [subFindLast] at h
    cases hr : subFindLast p rest with
    | some j =>
      rw [hr] at h
      cases h
      cases m with
      | zero => omega
      | succ m' =>
        have := ih hr m' (by omega)
        simpa [occB] using this
    | none =>
      rw [hr] at h
      by_cases hp : isPrefOf p (c :: rest) = true
      · rw [if_pos hp] at h
        cases h
        cases m with
        | zero => omega
        | succ m' =>
          have := subFindLast_none_occ hr m'
          simpa [occB] using this
      · rw [if_neg hp] at h; cases h

theorem containsSub_ex {p s : List Char}
    (h : containsSub p s = true) : ∃ n, occB p s n = true := by
  simp only [containsSub, Option.isSome_iff_exists] at h
  rcases h with ⟨j, hj⟩
  exact ⟨j, subFind_some_occ hj⟩

theorem subFind_eq_of {p s : List Char} {n : Nat}
    (h1 : occB p s n = true) (h2 : ∀ m, m < n → occB p s m = false) :
    subFind p s = some n := by
  cases hh : subFind p s with
  | none => exact absurd (subFind_none hh n) (by simp [h1])
  | some j =>
    rcases Nat.lt_trichotomy j n with hlt | heq | hgt
    · exact absurd (subFind_some_occ hh) (by simp [h2 j hlt])
    · rw [heq]
    · exact absurd h1 (by simp [subFind_min hh n hgt])

theorem subFindLast_eq_of {p s : List Char} {n : Nat} (hp0 : p ≠ [])
    (h1 : occB p s n = true) (h2 : ∀ m, n < m → occB p s m = false) :
    subFindLast p s = some n := by
  cases hh : subFindLast p s with
  | none => exact absurd (subFindLast_none_occ hh n) (by simp [h1])
  | some j =>
    rcases Nat.lt_trichotomy j n with hlt | heq | hgt
    · exact absurd h1 (by simp [subFindLast_max hp0 hh n hlt])
    · rw [heq]
    · exact absurd (subFindLast_some_occ hh) (by simp [h2 j hgt])

theorem occB_append_add {p x y : List Char} {n : Nat} :
    occB p (x ++ y) (x.length + n) = occB p y n := by
  simp [occB, List.drop_append]

theorem occB_append_left {p x y : List Char} {n : Nat}
    (h : occB p x n = true) : occB p (x ++ y) n = true := by
  rcases occB_iff.mp h with ⟨t, ht⟩
  by_cases hn : n ≤ x.length
  · refine occB_iff.mpr ⟨t ++ y, ?_⟩
    rw [List.drop_append_of_le_length hn, ht, List.append_assoc]
  · have hx : x.drop n = [] := by
      apply List.drop_eq_nil_of_le
      omega
    rw [hx] at ht
    have hp : p = [] := by
      cases p with
      | nil => rfl
      | cons a as => simp at ht
    subst hp
    simp [occB, isPrefOf_iff]

theorem containsSub_append_left {p x y : List Char}
    (h : containsSub p x = true) : containsSub p (x ++ y) = true := by
  rcases containsSub_ex h with ⟨n, hn⟩
  exact containsSub_of_occ (occB_append_left hn)

theorem containsSub_append_right {p x y : List Char}
    (h : containsSub p y = true) : containsSub p (x ++ y) = true := by
  rcases containsSub_ex h with ⟨n, hn⟩
  refine @containsSub_of_occ _ _ (x.length + n) ?_
  rw [occB_append_add]
  exact hn

theorem containsSub_sandwich {p x y : List Char} :
    containsSub p (x ++ p ++ y) = true := by
  refine @containsSub_of_occ _ _ x.length ?_
  refine occB_iff.mpr ⟨y, ?_⟩
  rw [List.append_assoc, List.drop_left]

/-- Newline plus the four-space indentation that the patcher prepends to an
inserted registration line. -/
def nl4 : List Char := '\n' :: "    ".toList

/-- Model of String.prototype.trimEnd. -/
def trimEndL (s : List Char) : List Char := (s.reverse.dropWhile isWs).reverse

/-- Model of String.prototype.trim. -/
def trimL (s : List Char) : List Char := trimEndL (s.dropWhile isWs)

/-- Model of the ECMAScript GetSubstitution processing applied to the string
replacement argument of String.prototype.replace for a regular expression
with exactly one capture group: the sequences dollar-dollar, dollar-ampersand,
dollar-backquote, dollar-quote and dollar-one (also dollar-zero-one) are
expanded, every other dollar sequence stays literal. -/
def jsSubstitute (matched before after cap1 : List Char) : List Char → List Char
  | [] => []
  | [c] => [c]
  | '$' :: '0' :: '1' :: rest => cap1 ++ jsSubstitute matched before after cap1 rest
  | c :: d :: rest =>
    if c = '$' then
      if d = '$' then '$' :: jsSubstitute matched before after cap1 rest
      else if d = '&' then matched ++ jsSubstitute matched before after cap1 rest
      else if d = '\x60' then before ++ jsSubstitute matched before after cap1 rest
      else if d = '\'' then after ++ jsSubstitute matched before after cap1 rest
      else if d = '1' then cap1 ++ jsSubstitute matched before after cap1 rest
      else c :: d :: jsSubstitute matched before after cap1 rest
    else c :: jsSubstitute matched before after cap1 (d :: rest)

/-- Quote class of the import-statement regex of registry-updater.ts. -/
def isQuoteCh (c : Char) : Bool := c = '\'' || c = '"'

/-- Rest of the line starting at position j; the regex dot does not match
newlines. -/
def lineOf (s : List Char) (j : Nat) : List Char := (s.drop j).takeWhile (· ≠ '\n')

/-- Last index q in L such that L holds a quote character at q immediately
followed by a semicolon. -/
def lastQuoteSemi : List Char → Option Nat
  | [] => none
  | [_] => none
  | a :: b :: rest =>
    match lastQuoteSemi (b :: rest) with
    | some j => some (j + 1)
    | none => if isQuoteCh a && b = ';' then some 0 else none

def importLit : List Char := "import".toList

def fromLit : List Char := "from".toList

/-- Length of the text matched by the part of the import regex after the
literal import, on the rest of the line L: the greedy dot-stars make the
match end just after the last quote-semicolon pair of the line, and the
match requires a from with a quote-semicolon at least four characters
later. -/
def importTailLen (L : List Char) : Option Nat :=
  match subFind fromLit L, lastQuoteSemi L with
  | some p, some q => if p + 4 ≤ q then some (q + 2) else none
  | _, _ => none

/-- First match of the import-statement regex at or after position i:
(start index, length of matched text). Fueled scan over start positions. -/
def importFindFrom (s : List Char) : Nat → Nat → Option (Nat × Nat)
  | _, 0 => none
  | i, fuel + 1 =>
    match subFind importLit (s.drop i) with
    | none => none
    | some d =>
      match importTailLen (lineOf s (i + d + 6)) with
      | some tl => some (i + d, 6 + tl)
      | none => importFindFrom s (i + d + 1) fuel

/-- All matches of the global import-statement regex, in order; each search
resumes at the end of the previous match. -/
def importMatchesFrom (s : List Char) : Nat → Nat → List (Nat × Nat)
  | _, 0 => []
  | i, fuel + 1 =>
    match importFindFrom s i (s.length + 1) with
    | none => []
    | some (st, len) => (st, len) :: importMatchesFrom s (st + len) fuel

def importMatches (s : List Char) : List (Nat × Nat) := importMatchesFrom s 0 (s.length + 1)

/-- Import-insertion step shared by the three auto-discovery registry
updaters (registry-updater.ts lines 276-287): if the file does not contain
the import line, and the import-statement regex has at least one match,
insert a newline plus the import line directly after the end of the last
occurrence (String.prototype.lastIndexOf on the matched text) of the last
match; otherwise leave the content unchanged. -/
def importStep (imp c : List Char) : List Char :=
  if containsSub imp c then c
  else
    match (importMatches c).getLast? with
    | none => c
    | some (st, len) =>
      let lastText := (c.drop st).take len
      let insertPos :=
        match subFindLast lastText c with
        | some n => n + len
        | none => len - 1
      c.take insertPos ++ '\n' :: imp ++ c.drop insertPos

def privateLit : List Char := "private".toList

def parenColon : List Char := "():".toList

def voidLit : List Char := "void".toList

/-- Strip a literal from the front of a character list. -/
def stripLit (lit s : List Char) : Option (List Char) :=
  if isPrefOf lit s then some (s.drop lit.length) else none

/-- Length (including the opening brace) of the match of the anchored
pattern private\s+NAME\(\):\s*void\s*BRACE at the start of L. The method
names used by the patcher start with a non-whitespace letter, so the greedy
whitespace runs of the regex are forced and this maximal-munch parse agrees
with the regex engine. -/
def sigMatchLen (mname L : List Char) : Option Nat :=
  match stripLit privateLit L with
  | none => none
  | some r1 =>
    let w1 := r1.takeWhile isWs
    if w1.isEmpty then none
    else
      match stripLit (mname ++ parenColon) (r1.drop w1.length) with
      | none => none
      | some r2 =>
        let w2 := r2.takeWhile isWs
        match stripLit voidLit (r2.drop w2.length) with
        | none => none
        | some r3 =>
          let w3 := r3.takeWhile isWs
          match stripLit ['\x7b'] (r3.drop w3.length) with
          | none => none
          | some _ =>
            some (privateLit.length + w1.length + mname.length + parenColon.length
              + w2.length + voidLit.length + w3.length + 1)

/-- Leftmost match of the initialize-method regex of registry-updater.ts:
scan start positions in order; where the signature part matches, the lazy
body group captures up to the first closing brace, which must exist for the
whole pattern to match. Returns (start, signature length including the
opening brace, body length). -/
def findInitAux (mname : List Char) : List Char → Option (Nat × Nat × Nat)
  | [] => none
  | c :: rest =>
    match sigMatchLen mname (c :: rest) with
    | some l =>
      match subFind ['\x7d'] ((c :: rest).drop l) with
      | some k => some (0, l, k)
      | none => (findInitAux mname rest).map (fun x => (x.1 + 1, x.2.1, x.2.2))
    | none => (findInitAux mname rest).map (fun x => (x.1 + 1, x.2.1, x.2.2))

def findInit (mname c : List Char) : Option (Nat × Nat × Nat) := findInitAux mname c

/-- Canonical signature text used in the replacement template literal of
registry-updater.ts. -/
def canonSig (mname : List Char) : List Char :=
  privateLit ++ [' '] ++ mname ++ "(): void ".toList ++ ['\x7b']

/-- Body rewriting of the auto-discovery registration insertion
(registry-updater.ts lines 296-314): insert after the semicolon ending the
last existing setter call (indexOf of the semicolon from the call position,
plus one; the JavaScript minus-one-plus-one fallback makes a missing
semicolon insert at position zero), or append at the trimmed end of the body
when no setter call exists. -/
def regNewBody (setPfx reg body : List Char) : List Char :=
  match subFindLast setPfx body with
  | some lastReg =>
    let lineEnd :=
      match subFind [';'] (body.drop lastReg) with
      | some d => lastReg + d + 1
      | none => 0
    body.take lineEnd ++ nl4 ++ reg ++ body.drop lineEnd
  | none => trimEndL body ++ nl4 ++ reg ++ nl4

/-- Registration-insertion step of the auto-discovery updaters
(registry-updater.ts lines 289-316): locate the first match of the
initialize-method regex; no-op when the captured body already contains the
registration line; otherwise rebuild the body and splice the replacement
(processed by GetSubstitution, as String.prototype.replace does for string
replacements) over the first match. -/
def regStep (mname setPfx reg c : List Char) : List Char :=
  match findInit mname c with
  | none => c
  | some (st, sl, bl) =>
    let body := (c.drop (st + sl)).take bl
    if containsSub reg body then c
    else
      let newBody := regNewBody setPfx reg body
      let repl := canonSig mname ++ newBody ++ ['\x7d']
      let mlen := sl + bl + 1
      let matched := (c.drop st).take mlen
      c.take st ++ jsSubstitute matched (c.take st) (c.drop (st + mlen)) body repl
        ++ c.drop (st + mlen)

/-- One auto-discovery registry update applied to the registry file content
(registry-updater.ts lines 264-320, 325-381 and 386-442 have identical
structure up to the method name and setter prefix): import insertion
followed by registration insertion. -/
def autoPatch (mname setPfx imp reg c : List Char) : List Char :=
  regStep mname setPfx reg (importStep imp c)

def mnameTools : List Char := "initializeTools".toList

def mnameResources : List Char := "initializeResources".toList

def mnamePrompts : List Char := "initializePrompts".toList

def setTools : List Char := "this.tools.set(".toList

def setResources : List Char := "this.resources.set(".toList

def setPrompts : List Char := "this.prompts.set(".toList

/-- Content transformation performed by updateToolRegistryWithAutoDiscovery
on the tool registry file. -/
def updateToolContent (imp reg c : List Char) : List Char :=
  autoPatch mnameTools setTools imp reg c

/-- Content transformation performed by
updateResourceRegistryWithAutoDiscovery on the resource registry file. -/
def updateResourceContent (imp reg c : List Char) : List Char :=
  autoPatch mnameResources setResources imp reg c

/-- Content transformation performed by updatePromptRegistryWithAutoDiscovery
on the prompt registry file. -/
def updatePromptContent (imp reg c : List Char) : List Char :=
  autoPatch mnamePrompts setPrompts imp reg c

def declNlExport : List Char := "\n\nexport".toList

def declClass : List Char := "class".toList

def declIface : List Char := "interface".toList

/-- Model of content.search over the declaration-keyword regex of the legacy
updateToolRegistry (registry-updater.ts line 73): index of the first position
where one of the three alternatives matches. -/
def findDeclIdx : List Char → Option Nat
  | [] => none
  | c :: rest =>
    if isPrefOf declNlExport (c :: rest) || isPrefOf declClass (c :: rest)
        || isPrefOf declIface (c :: rest) then some 0
    else (findDeclIdx rest).map (· + 1)

/-- Import-insertion step of the legacy updateToolRegistry
(registry-updater.ts lines 62-78): like importStep, but with a fallback that
inserts the import line before the first declaration keyword when no import
statement matches; when that also fails the content is left unchanged. -/
def legacyImportStep (imp c : List Char) : List Char :=
  if containsSub imp c then c
  else
    match (importMatches c).getLast? with
    | some (st, len) =>
      let lastText := (c.drop st).take len
      let insertPos :=
        match subFindLast lastText c with
        | some n => n + len
        | none => len - 1
      c.take insertPos ++ '\n' :: imp ++ c.drop insertPos
    | none =>
      match findDeclIdx c with
      | some n => c.take n ++ '\n' :: imp ++ c.drop n
      | none => c

/-- Boolean suffix test on character lists (String.prototype.endsWith). -/
def isSuffOf (p s : List Char) : Bool := isPrefOf p.reverse s.reverse

/-- The closed component-kind enumeration of types/index.ts. -/
inductive ComponentType where
  | tool
  | resource
  | prompt
  | service
  | transport
  | util
deriving DecidableEq, Repr

/-- Helper of wsRunsToHyphens: the flag records whether the previous
character belonged to a whitespace run that has already emitted its
hyphen. -/
def wsRunsToHyphensGo : Bool → List Char → List Char
  | _, [] => []
  | inRun, c :: rest =>
    if isWs c then (if inRun then [] else ['-']) ++ wsRunsToHyphensGo true rest
    else c :: wsRunsToHyphensGo false rest

/-- Model of String.prototype.replace with the global whitespace-run regex
and a hyphen replacement, as used to normalise component names: every
maximal whitespace run becomes a single hyphen. -/
def wsRunsToHyphens (s : List Char) : List Char := wsRunsToHyphensGo false s

def isAsciiLetter (c : Char) : Bool := ('a' ≤ c && c ≤ 'z') || ('A' ≤ c && c ≤ 'Z')

def isNameCh (c : Char) : Bool :=
  isAsciiLetter c || ('0' ≤ c && c ≤ '9') || c = '_' || c = '-'

/-- Test of the anchored component-name regex of project-detector.ts: a
letter followed by letters, digits, underscores and hyphens. -/
def matchesNameRegex : List Char → Bool
  | [] => false
  | c :: rest => isAsciiLetter c && rest.all isNameCh

def reservedWords : List (List Char) :=
  ["index", "server", "config", "main", "default", "export", "import"].map String.toList

/-- Error cases of validateComponentName, one constructor per message of
project-detector.ts lines 70-108. -/
inductive NameErr where
  | emptyName
  | badChars
  | tooLong
  | reservedWord
  | suffixTool
  | suffixResource
  | suffixPrompt
  | suffixService
deriving DecidableEq, Repr

structure NameValidation where
  isValid : Bool
  error : Option NameErr
deriving DecidableEq, Repr

/-- Translation of validateComponentName (project-detector.ts lines 69-112).
Note the switch has cases for tool, resource, prompt and service only; the
transport and util kinds skip the suffix check. -/
def validateComponentName (name : List Char) (ty : ComponentType) : NameValidation :=
  if name.isEmpty || (trimL name).isEmpty then ⟨false, some .emptyName⟩
  else
    let cleanName := wsRunsToHyphens (trimL name)
    if ¬ matchesNameRegex cleanName then ⟨false, some .badChars⟩
    else if cleanName.length > 50 then ⟨false, some .tooLong⟩
    else if reservedWords.contains (cleanName.map Char.toLower) then ⟨false, some .reservedWord⟩
    else
      match ty with
      | .tool =>
        if isSuffOf "-tool".toList cleanName || isSuffOf "Tool".toList cleanName then
          ⟨false, some .suffixTool⟩
        else ⟨true, none⟩
      | .resource =>
        if isSuffOf "-resource".toList cleanName || isSuffOf "Resource".toList cleanName then
          ⟨false, some .suffixResource⟩
        else ⟨true, none⟩
      | .prompt =>
        if isSuffOf "-prompt".toList cleanName || isSuffOf "Prompt".toList cleanName then
          ⟨false, some .suffixPrompt⟩
        else ⟨true, none⟩
      | .service =>
        if isSuffOf "-service".toList cleanName || isSuffOf "Service".toList cleanName then
          ⟨false, some .suffixService⟩
        else ⟨true, none⟩
      | .transport => ⟨true, none⟩
      | .util => ⟨true, none⟩

/-- Translation of getComponentDirectory (project-detector.ts lines 133-143);
total on the enumeration, so the default throw branch is unreachable. -/
def getComponentDirectory (ty : ComponentType) : List Char :=
  match ty with
  | .tool => "tools".toList
  | .resource => "resources".toList
  | .prompt => "prompts".toList
  | .service => "services".toList
  | .transport => "transports".toList
  | .util => "utils".toList

/-- Translation of generateComponentFileName (project-detector.ts lines
148-160). -/
def generateComponentFileName (name : List Char) (ty : ComponentType) : List Char :=
  let cleanName := (wsRunsToHyphens (trimL name)).map Char.toLower
  match ty with
  | .tool => cleanName ++ "-tool.ts".toList
  | .resource => cleanName ++ "-resource.ts".toList
  | .prompt => cleanName ++ "-prompt.ts".toList
  | .service => cleanName ++ ".ts".toList
  | .transport => cleanName ++ "-transport.ts".toList
  | .util => cleanName ++ ".ts".toList

/-- Manifest data as far as detectMcpProject inspects it: the package name
and the dependency keys of dependencies and devDependencies. -/
structure PkgJson where
  pkgName : Option (List Char)
  dependencies : List (List Char)
  devDependencies : List (List Char)
deriving DecidableEq, Repr

/-- Content of a file in the modelled file system: a source text file, a
manifest on which readJson succeeds, or data on which readJson raises a
parse error. -/
inductive FileData where
  | text (s : List Char)
  | pkg (p : PkgJson)
  | badJson
deriving DecidableEq, Repr

/-- File system: association list from paths to file data; the most recent
write shadows older entries. -/
abbrev World := List (List Char × FileData)

def lookupW (w : World) (p : List Char) : Option FileData :=
  match w with
  | [] => none
  | (q, d) :: rest => if q = p then some d else lookupW rest p

def setFileW (w : World) (p : List Char) (d : FileData) : World := (p, d) :: w

/-- Model of fs.pathExists: a path exists when it is a file of the world or
a directory, that is a proper prefix (followed by a separator) of some
file of the world. -/
def pathExistsW (w : World) (p : List Char) : Bool :=
  (lookupW w p).isSome || w.any (fun e => isPrefOf (p ++ ['/']) e.1)

/-- Model of fs.readFile for the flows below, which only read text files. -/
def readTextW (w : World) (p : List Char) : List Char :=
  match lookupW w p with
  | some (FileData.text s) => s
  | _ => []

/-- Model of path.join for two segments. -/
def pjoin (a b : List Char) : List Char := a ++ '/' :: b

/-- Model of path.basename. -/
def basenameL (p : List Char) : List Char :=
  match subFindLast ['/'] p with
  | some n => p.drop (n + 1)
  | none => p

/-- Model of path.relative for the only case the source exercises: the
second path lies strictly inside the base directory. -/
def relativeL (base q : List Char) : List Char :=
  if isPrefOf (base ++ ['/']) q then q.drop (base.length + 1) else q

/-- Translation of the ProjectContext interface of types/index.ts. -/
structure ProjectContext where
  isValidProject : Bool
  projectPath : List Char
  srcPath : List Char
  projectName : List Char
  packageJson : Option PkgJson
deriving DecidableEq, Repr

def sdkDep : List Char := "@modelcontextprotocol/sdk".toList

def requiredFiles : List (List Char) :=
  ["server.ts", "core/mcp-server.ts", "tools/index.ts", "resources/index.ts",
    "prompts/index.ts"].map String.toList

/-- Translation of detectMcpProject (project-detector.ts lines 14-64). The
whole body runs inside a try/catch whose only throwing step is readJson;
the model returns the context built so far instead of propagating an
exception, so detection never fails to its caller. -/
def detectMcpProject (tp : List Char) (w : World) : ProjectContext :=
  let base : ProjectContext :=
    ⟨false, tp, pjoin tp "src".toList, [], none⟩
  if ¬ pathExistsW w (pjoin tp "package.json".toList) then base
  else
    match lookupW w (pjoin tp "package.json".toList) with
    | some (FileData.pkg p) =>
      let nm :=
        match p.pkgName with
        | some n => if n.isEmpty then basenameL tp else n
        | none => basenameL tp
      let ctx := { base with packageJson := some p, projectName := nm }
      if ¬ (p.dependencies.contains sdkDep || p.devDependencies.contains sdkDep) then ctx
      else if ¬ pathExistsW w ctx.srcPath then ctx
      else if requiredFiles.any (fun f => ¬ pathExistsW w (pjoin ctx.srcPath f)) then ctx
      else { ctx with isValidProject := true }
    | _ => base

/-- Translation of checkComponentExists (project-detector.ts lines 117-128). -/
def checkComponentExists (ctx : ProjectContext) (ty : ComponentType)
    (name : List Char) (w : World) : Bool × Option (List Char) :=
  let filePath := pjoin (pjoin ctx.srcPath (getComponentDirectory ty))
    (generateComponentFileName name ty)
  let ex := pathExistsW w filePath
  (ex, if ex then some filePath else none)

/-- Translation of the RegistryUpdate interface of types/index.ts. -/
structure RegistryUpdate where
  registryType : ComponentType
  addImport : List Char
  addInitialization : List Char
  addRegistration : List Char
deriving DecidableEq, Repr

/-- Translation of the ComponentTemplate fields that add-component.ts
consumes. -/
structure ComponentTemplate where
  templateContent : List Char
  indexUpdateContent : List Char
  registryUpdates : List RegistryUpdate
deriving DecidableEq, Repr

/-- Errors surfaced by the orchestrator flow: an injected input/output
failure of a write-type primitive, or one of the explicit throws of
registry-updater.ts. -/
inductive AddErr where
  | ioFail
  | indexMissing (p : List Char)
  | registryMissing (p : List Char)
deriving DecidableEq, Repr

/-- Run state: the file system plus a counter of the fallible write-type
primitives executed so far. An oracle decides per counter value whether the
primitive succeeds, which models externally injected write failures. -/
structure St where
  world : World
  opIdx : Nat
deriving Repr

abbrev Oracle := Nat → Bool

/-- Model of fs.ensureDir: consumes one oracle slot, no file change. -/
def opEnsure (o : Oracle) (st : St) : Except (AddErr × St) St :=
  if o st.opIdx then .ok { st with opIdx := st.opIdx + 1 }
  else .error (.ioFail, { st with opIdx := st.opIdx + 1 })

/-- Model of fs.writeFile. -/
def opWrite (o : Oracle) (p : List Char) (d : FileData) (st : St) :
    Except (AddErr × St) St :=
  if o st.opIdx then .ok ⟨setFileW st.world p d, st.opIdx + 1⟩
  else .error (.ioFail, { st with opIdx := st.opIdx + 1 })

/-- Model of fs.copy of a single file. -/
def opCopy (o : Oracle) (src dst : List Char) (st : St) : Except (AddErr × St) St :=
  if o st.opIdx then
    match lookupW st.world src with
    | some d => .ok ⟨setFileW st.world dst d, st.opIdx + 1⟩
    | none => .error (.ioFail, { st with opIdx := st.opIdx + 1 })
  else .error (.ioFail, { st with opIdx := st.opIdx + 1 })

def registryFilePaths (ctx : ProjectContext) : List (List Char) :=
  [pjoin (pjoin ctx.srcPath "tools".toList) "index.ts".toList,
    pjoin (pjoin ctx.srcPath "resources".toList) "index.ts".toList,
    pjoin (pjoin ctx.srcPath "prompts".toList) "index.ts".toList]

/-- Loop body of backupRegistryFiles: existing registry files are copied
into the backup directory, missing ones are skipped. -/
def backupLoop (o : Oracle) (srcPath backupDir : List Char) :
    List (List Char) → St → List (List Char) → Except (AddErr × St) (List (List Char) × St)
  | [], st, acc => .ok (acc, st)
  | f :: rest, st, acc =>
    if pathExistsW st.world f then
      let bp := pjoin backupDir (relativeL srcPath f)
      match opEnsure o st with
      | .error e => .error e
      | .ok st1 =>
        match opCopy o f bp st1 with
        | .error e => .error e
        | .ok st2 => backupLoop o srcPath backupDir rest st2 (acc ++ [bp])
    else backupLoop o srcPath backupDir rest st acc

/-- Translation of backupRegistryFiles (registry-updater.ts lines 447-474);
ts stands for the timestamp directory name derived from the current time. -/
def backupRegistryFilesM (o : Oracle) (ctx : ProjectContext) (ts : List Char)
    (st : St) : Except (AddErr × St) (List (List Char) × St) :=
  let backupDir := pjoin (pjoin ctx.projectPath ".mcp-backups".toList) ts
  match opEnsure o st with
  | .error e => .error e
  | .ok st1 => backupLoop o ctx.srcPath backupDir (registryFilePaths ctx) st1 []

/-- Model of String.prototype.split with the path separator. -/
def splitSlash : List Char → List (List Char)
  | [] => [[]]
  | c :: rest =>
    if c = '/' then [] :: splitSlash rest
    else
      match splitSlash rest with
      | [] => [[c]]
      | h :: t => (c :: h) :: t

/-- Translation of restoreRegistryFiles (registry-updater.ts lines 479-494):
each backup path is mapped back to its original path by stripping the
backup root and the timestamp directory, then copied over it. An exception
aborts the loop; the returned flag records whether all copies succeeded. -/
def restoreLoop (o : Oracle) (ctx : ProjectContext) :
    List (List Char) → St → St × Bool
  | [], st => (st, true)
  | bp :: rest, st =>
    let relWithTs := relativeL (pjoin ctx.projectPath ".mcp-backups".toList) bp
    let rel := List.intercalate ['/'] ((splitSlash relWithTs).drop 1)
    let orig := pjoin ctx.srcPath rel
    match opCopy o bp orig st with
    | .error (_, st') => (st', false)
    | .ok st' => restoreLoop o ctx rest st'

def exportLit : List Char := "export".toList

/-- Match of the export-name regex of updateComponentIndex at one position:
the literal export, optional whitespace, an opening brace, then a nonempty
capture running to the first closing brace (which must exist); the source
trims the capture before using it. -/
def exportCapAt (s : List Char) : Option (List Char) :=
  if isPrefOf exportLit s then
    let after := s.drop exportLit.length
    let rest2 := after.drop (after.takeWhile isWs).length
    match rest2 with
    | '\x7b' :: inner0 =>
      let inner := inner0.takeWhile (· ≠ '\x7d')
      if ¬ inner.isEmpty && containsSub ['\x7d'] inner0 then some (trimL inner) else none
    | _ => none
  else none

/-- Leftmost match of the export-name regex (registry-updater.ts line 35). -/
def exportCapture : List Char → Option (List Char)
  | [] => none
  | c :: rest =>
    match exportCapAt (c :: rest) with
    | some r => some r
    | none => exportCapture rest

def componentsWithIndex : List ComponentType := [.tool, .resource, .prompt]

/-- Translation of updateComponentIndex (registry-updater.ts lines 14-45):
kinds without an index file are skipped; a missing index file throws; when
the extracted export name already occurs in the index the update is skipped
with a warning; otherwise the fragment is appended to the trimmed content. -/
def updateComponentIndexM (o : Oracle) (ctx : ProjectContext) (ty : ComponentType)
    (fragment : List Char) (st : St) : Except (AddErr × St) St :=
  if ¬ componentsWithIndex.contains ty then .ok st
  else
    let indexPath := pjoin (pjoin ctx.srcPath (getComponentDirectory ty)) "index.ts".toList
    if ¬ pathExistsW st.world indexPath then .error (.indexMissing indexPath, st)
    else
      let current := readTextW st.world indexPath
      let skip :=
        match exportCapture fragment with
        | some en => ¬ en.isEmpty && containsSub en current
        | none => false
      if skip then .ok st
      else opWrite o indexPath (.text (trimL current ++ '\n' :: fragment ++ ['\n'])) st

/-- One auto-discovery registry update as an effect: read the registry file
(throwing when it is missing), patch its content with autoPatch, write it
back. Shared shape of updateToolRegistryWithAutoDiscovery and its resource
and prompt siblings. -/
def updateRegistryM (o : Oracle) (ctx : ProjectContext) (dir mname setPfx : List Char)
    (u : RegistryUpdate) (st : St) : Except (AddErr × St) St :=
  let registryPath := pjoin (pjoin ctx.srcPath dir) "index.ts".toList
  if ¬ pathExistsW st.world registryPath then .error (.registryMissing registryPath, st)
  else
    let content := readTextW st.world registryPath
    opWrite o registryPath
      (.text (autoPatch mname setPfx u.addImport u.addRegistration content)) st

/-- Translation of applyRegistryUpdates (registry-updater.ts lines 235-259):
dispatch on the registry type; unknown types only warn; any error is
re-thrown after logging. -/
def applyRegistryUpdatesM (o : Oracle) (ctx : ProjectContext) :
    List RegistryUpdate → St → Except (AddErr × St) St
  | [], st => .ok st
  | u :: rest, st =>
    let step :=
      match u.registryType with
      | .tool => updateRegistryM o ctx "tools".toList mnameTools setTools u st
      | .resource => updateRegistryM o ctx "resources".toList mnameResources setResources u st
      | .prompt => updateRegistryM o ctx "prompts".toList mnamePrompts setPrompts u st
      | _ => .ok st
    match step with
    | .error e => .error e
    | .ok st' => applyRegistryUpdatesM o ctx rest st'

/-- Outcome of a run of addComponent that did not throw: either the
component was added, or the run returned early with a console message
(invalid project, name collision). -/
inductive AddOutcome where
  | completed
  | notValidProject
  | alreadyExists
deriving DecidableEq, Repr

/-- Steps of addComponent after a successful backup (add-component.ts lines
83-113): ensure the component directory, write the component file, update
the index, and apply the registry updates when there are any. -/
def afterBackupM (o : Oracle) (ty : ComponentType) (name : List Char)
    (template : ComponentTemplate) (ctx : ProjectContext) (st : St) :
    Except (AddErr × St) St :=
  let componentDir := pjoin ctx.srcPath (getComponentDirectory ty)
  match opEnsure o st with
  | .error e => .error e
  | .ok st1 =>
    let filePath := pjoin componentDir (generateComponentFileName name ty)
    match opWrite o filePath (.text template.templateContent) st1 with
    | .error e => .error e
    | .ok st2 =>
      match updateComponentIndexM o ctx ty template.indexUpdateContent st2 with
      | .error e => .error e
      | .ok st3 =>
        if template.registryUpdates.isEmpty then .ok st3
        else applyRegistryUpdatesM o ctx template.registryUpdates st3

/-- Translation of addComponent (add-component.ts lines 28-137). Detection
failure and a name collision return normally after console output; the
template generation is an external collaborator whose result is a
parameter. The catch block restores the registry files from the backup
(swallowing restore errors) only when the backup path list is non-empty,
then re-throws. The ts parameter is the timestamp directory name. -/
def addComponentM (o : Oracle) (ty : ComponentType) (name : List Char)
    (template : ComponentTemplate) (tp ts : List Char) (st : St) :
    Except (AddErr × St) (AddOutcome × St) :=
  let ctx := detectMcpProject tp st.world
  if ¬ ctx.isValidProject then .ok (.notValidProject, st)
  else if (checkComponentExists ctx ty name st.world).1 then .ok (.alreadyExists, st)
  else
    match backupRegistryFilesM o ctx ts st with
    | .error e => .error e
    | .ok (backupPaths, st1) =>
      match afterBackupM o ty name template ctx st1 with
      | .ok st2 => .ok (.completed, st2)
      | .error (err, stE) =>
        if backupPaths.isEmpty then .error (err, stE)
        else .error (err, (restoreLoop o ctx backupPaths stE).1)

def validTypeStrings : List (List Char) :=
  ["tool", "resource", "prompt", "service", "transport", "util"].map String.toList

def parseComponentType (s : List Char) : Option ComponentType :=
  if s = "tool".toList then some .tool
  else if s = "resource".toList then some .resource
  else if s = "prompt".toList then some .prompt
  else if s = "service".toList then some .service
  else if s = "transport".toList then some .transport
  else if s = "util".toList then some .util
  else none

/-- Exit code of the add subcommand (cli/index.ts lines 130-187) when both
the component type and the component name are supplied on the command line:
an unknown type or a failed name validation exits 1; a declined
confirmation exits 0; a throw from addComponent is caught and exits 1; a
normal return of addComponent falls through to the success message and the
process ends with exit code 0. The interactive prompts only fill defaults
in this scenario and do not influence these fields. -/
def cliAddExit (tyStr name : List Char) (skipValidation confirmed : Bool)
    (template : ComponentTemplate) (tp ts : List Char) (o : Oracle) (w : World) : Nat :=
  match parseComponentType tyStr with
  | none => 1
  | some ty =>
    if ¬ skipValidation && ¬ (validateComponentName name ty).isValid then 1
    else if ¬ confirmed then 0
    else
      match addComponentM o ty name template tp ts ⟨w, 0⟩ with
      | .error _ => 1
      | .ok _ => 0

theorem occ_char_at {ch : Char} {l : List Char} {i : Nat} (hi : i < l.length) :
    occB [ch] l i = true ↔ l[i] = ch := by
  rw [occB, List.drop_eq_getElem_cons hi]
  simp only [isPrefOf, Bool.and_eq_true, decide_eq_true_eq]
  constructor
  · rintro ⟨h, -⟩; exact h.symm
  · intro h; exact ⟨h.symm, trivial⟩

theorem no_char_in_take {ch : Char} {l : List Char} {k : Nat}
    (h : ∀ i, i < k → occB [ch] l i = false) : ∀ e ∈ l.take k, e ≠ ch := by
  intro e he
  rcases List.mem_iff_getElem.mp he with ⟨i, hi, hei⟩
  have hik : i < k := by
    have := hi
    simp only [List.length_take] at this
    omega
  have hil : i < l.length := by
    have := hi
    simp only [List.length_take] at this
    omega
  intro hcontra
  have hocc : occB [ch] l i = true := by
    rw [occ_char_at hil, ← List.getElem_take l, hei, hcontra]
  rw [h i hik] at hocc
  cases hocc

theorem findInitAux_spec {mname c : List Char} {st sl bl : Nat}
    (h : findInitAux mname c = some (st, sl, bl)) :
    sigMatchLen mname (c.drop st) = some sl ∧
    subFind ['\x7d'] (c.drop (st + sl)) = some bl := by
  induction c generalizing st with
  | nil => simp [findInitAux] at h
  | cons a rest ih =>
    simp only [findInitAux] at h
    split at h
    next l hs =>
      split at h
      next k hb =>
        simp only [Option.some.injEq, Prod.mk.injEq] at h
        obtain ⟨rfl, rfl, rfl⟩ := h
        refine ⟨by simpa using hs, by simpa using hb⟩
      next hb =>
        rcases Option.map_eq_some'.mp h with ⟨⟨st', sl', bl'⟩, hx, hy⟩
        simp only [Prod.mk.injEq] at hy
        obtain ⟨h1, h2, h3⟩ := hy
        subst h1 h2 h3
        have hres := ih hx
        rw [List.drop_succ_cons, Nat.add_right_comm st' 1 sl', List.drop_succ_cons]
        exact hres
    next hs =>
      rcases Option.map_eq_some'.mp h with ⟨⟨st', sl', bl'⟩, hx, hy⟩
      simp only [Prod.mk.injEq] at hy
      obtain ⟨h1, h2, h3⟩ := hy
      subst h1 h2 h3
      have hres := ih hx
      rw [List.drop_succ_cons, Nat.add_right_comm st' 1 sl', List.drop_succ_cons]
      exact hres

def c3file : List Char :=
  "private initializeTools(): void \x7b\n  const o = \x7b a: 1 \x7d;\n  this.tools.set('x', y);\n\x7d".toList

def c3imp : List Char := "import \x7b BTool \x7d from './b-tool.js';".toList

def c3reg : List Char := "this.tools.set('b', new BTool());".toList

def c3bad : List Char :=
  "private initializeTools(): void \x7b\n  const o = \x7b a: 1\n    this.tools.set('b', new BTool());\n    \x7d;\n  this.tools.set('x', y);\n\x7d".toList

/-- C3 counterexample: on a registry file whose method body holds a nested
object literal, the regex scan is not bracket-aware: the captured body stops
at the first closing brace (that of the inner object literal, 20 characters,
not the 47-character body bounded by the matching brace), and the patch
inserts the new registration line inside the object literal, before the
inner closing brace — the resulting file is c3bad, in which the new setter
call sits between a: 1 and the inner closing brace while the existing setter
call stays outside the rewritten region. -/
theorem c3_counterexample :
    findInit mnameTools c3file = some (0, 33, 20) ∧
    (c3file.drop 33).take 20 = "\n  const o = \x7b a: 1 ".toList ∧
    updateToolContent c3imp c3reg c3file = c3bad := by
  refine ⟨by decide, by decide, by decide⟩

/-- C3 (amended): the registration-insertion step locates the method body by
regex, not by bracket matching: whenever the initialize-method pattern
matches, the captured body contains no closing brace at all — it extends
from the opening brace to the first closing brace of the file, which with
nested braces is an inner one, and the insertion happens inside that
truncated region. -/
theorem c3_amended (mname c : List Char) (st sl bl : Nat)
    (h : findInit mname c = some (st, sl, bl)) :
    (∀ e ∈ (c.drop (st + sl)).take bl, e ≠ '\x7d') ∧
    (∃ t, c.drop (st + sl + bl) = '\x7d' :: t) := by
  obtain ⟨hsig, hbr⟩ := findInitAux_spec h
  constructor
  · exact no_char_in_take (fun i hi => subFind_min hbr i hi)
  · have hocc := subFind_some_occ hbr
    rcases occB_iff.mp hocc with ⟨t, ht⟩
    refine ⟨t, ?_⟩
    rw [← List.drop_drop]
    exact ht

/-- Witness for c3_amended at the concrete nested-brace file. -/
theorem c3_amended_witness :
    (∀ e ∈ (c3file.drop (0 + 33)).take 20, e ≠ '\x7d') ∧
    (∃ t, c3file.drop (0 + 33 + 20) = '\x7d' :: t) :=
  c3_amended mnameTools c3file 0 33 20 (by decide)

/-- Suffix pair tested by the switch of validateComponentName for each
component kind: tool, resource, prompt and service have a kebab-case and a
concatenated Pascal-case suffix; the switch of project-detector.ts has no
case for transport or util, so those kinds have no suffix check. -/
def kindSuffixPair : ComponentType → Option (List Char × List Char)
  | .tool => some ("-tool".toList, "Tool".toList)
  | .resource => some ("-resource".toList, "Resource".toList)
  | .prompt => some ("-prompt".toList, "Prompt".toList)
  | .service => some ("-service".toList, "Service".toList)
  | .transport => none
  | .util => none

/-- C7 counterexample: validateComponentName has no suffix check for the
transport kind, so a name ending in the transport suffix is accepted. -/
theorem c7_counterexample :
    (validateComponentName "my-transport".toList ComponentType.transport).isValid = true := by
  decide

/-- C7 (amended): for the kinds that have a suffix check — tool, resource,
prompt and service, but not transport — a name whose normalised form ends in
the kind suffix in kebab or concatenated form is rejected; the two spec
instances for the tool kind hold as stated. -/
theorem c7_amended :
    (∀ (name : List Char) (ty : ComponentType) (p q : List Char),
        kindSuffixPair ty = some (p, q) →
        (isSuffOf p (wsRunsToHyphens (trimL name)) = true ∨
          isSuffOf q (wsRunsToHyphens (trimL name)) = true) →
        (validateComponentName name ty).isValid = false) ∧
    (validateComponentName "my-tool".toList ComponentType.tool).isValid = false ∧
    (validateComponentName "My Thing".toList ComponentType.tool).isValid = true := by
  refine ⟨?_, by decide, by decide⟩
  intro name ty p q hk hs
  have hs' : (isSuffOf p (wsRunsToHyphens (trimL name)) ||
      isSuffOf q (wsRunsToHyphens (trimL name))) = true := by
    rcases hs with h | h <;> simp [h]
  cases ty <;> simp only [kindSuffixPair, Option.some.injEq, Prod.mk.injEq,
    reduceCtorEq] at hk <;> obtain ⟨rfl, rfl⟩ := hk <;>
    simp only [validateComponentName] <;> split_ifs <;> simp_all

/-- Witness for c7_amended instantiated at the resource kind. -/
theorem c7_amended_witness :
    (validateComponentName "fast-cache-resource".toList ComponentType.resource).isValid
      = false :=
  c7_amended.1 "fast-cache-resource".toList ComponentType.resource
    "-resource".toList "Resource".toList (by decide) (Or.inl (by decide))

/-- C9: detection fails soft. detectMcpProject is a total function into
ProjectContext (the try/catch of the source absorbs the only throwing step,
readJson, which the model renders as the non-manifest branch of the match),
so it never raises to its caller; a manifest without the
modelcontextprotocol sdk dependency yields an invalid context no matter
which other files exist, and a manifest that fails to parse (the modelled
input/output error during inspection) does too. -/
theorem c9_detection_fails_soft :
    (∀ (tp : List Char) (w : World) (p : PkgJson),
        lookupW w (pjoin tp "package.json".toList) = some (FileData.pkg p) →
        p.dependencies.contains sdkDep = false →
        p.devDependencies.contains sdkDep = false →
        (detectMcpProject tp w).isValidProject = false) ∧
    (∀ (tp : List Char) (w : World),
        lookupW w (pjoin tp "package.json".toList) = some FileData.badJson →
        (detectMcpProject tp w).isValidProject = false) := by
  constructor
  · intro tp w p hl h1 h2
    have hex : pathExistsW w (pjoin tp "package.json".toList) = true := by
      unfold pathExistsW
      rw [hl]
      rfl
    have hm1 : sdkDep ∉ p.dependencies := by simpa using h1
    have hm2 : sdkDep ∉ p.devDependencies := by simpa using h2
    unfold detectMcpProject
    rw [hex, hl]
    simp [hm1, hm2]
  · intro tp w hl
    have hex : pathExistsW w (pjoin tp "package.json".toList) = true := by
      unfold pathExistsW
      rw [hl]
      rfl
    unfold detectMcpProject
    rw [hex, hl]
    simp

/-- Witness for c9_detection_fails_soft: a project directory with the source
root and every required file present whose manifest lacks the sdk
dependency is still rejected. -/
theorem c9_witness :
    (detectMcpProject "/p".toList
      [(pjoin "/p".toList "package.json".toList,
          FileData.pkg ⟨some "p".toList, ["left-pad".toList], []⟩),
        (pjoin (pjoin "/p".toList "src".toList) "server.ts".toList, FileData.text []),
        (pjoin (pjoin "/p".toList "src".toList) "core/mcp-server.ts".toList, FileData.text []),
        (pjoin (pjoin "/p".toList "src".toList) "tools/index.ts".toList, FileData.text []),
        (pjoin (pjoin "/p".toList "src".toList) "resources/index.ts".toList, FileData.text []),
        (pjoin (pjoin "/p".toList "src".toList) "prompts/index.ts".toList, FileData.text [])]).isValidProject
      = false :=
  c9_detection_fails_soft.1 "/p".toList _ ⟨some "p".toList, ["left-pad".toList], []⟩
    (by decide) (by decide) (by decide)

/-- C4: evidence against the claimed exit-code discrimination. Running the
add command with a valid kind and name in a directory that is not a valid
project (empty world), with the configuration confirmed, makes addComponent
return normally with the not-a-valid-project outcome, after which the CLI
action prints its success message and finishes without calling
process.exit, so the process exit code is 0 — the claim (and the code's own
failure message) say this detection failure should exit 1. -/
theorem c4_exit_zero_on_detection_failure :
    cliAddExit "tool".toList "alpha".toList false true ⟨[], [], []⟩ "/p".toList
        "t0".toList (fun _ => true) [] = 0 ∧
    addComponentM (fun _ => true) ComponentType.tool "alpha".toList ⟨[], [], []⟩
        "/p".toList "t0".toList ⟨[], 0⟩ = .ok (.notValidProject, ⟨[], 0⟩) := by
  exact ⟨rfl, rfl⟩

def c8file : List Char :=
  "export class ToolRegistry \x7b\n  private initializeTools(): void \x7b\n  \x7d\n\x7d\n".toList

def c8imp : List Char := "import \x7b BTool \x7d from './b-tool.js';".toList

def c8reg : List Char := "this.tools.set('b', new BTool());".toList

/-- C8 counterexample: a registry file that contains no import statement but
does contain a top-level declaration keyword (class at index 7). The
auto-discovery patcher used by applyRegistryUpdates performs no fallback:
the import step leaves the file unchanged and the full patch still does not
contain the import line, against the claimed insertion before the first
declaration keyword. -/
theorem c8_counterexample :
    containsSub c8imp c8file = false ∧
    findDeclIdx c8file = some 7 ∧
    importStep c8imp c8file = c8file ∧
    containsSub c8imp (updateToolContent c8imp c8reg c8file) = false := by
  refine ⟨by decide, by decide, by decide, by decide⟩

/-- C8 (amended): when the import line is absent and no import statement
matches, the auto-discovery import step leaves the content unchanged (no
fallback, no warning, no crash); the declaration-keyword fallback exists
only in the legacy updateToolRegistry, which inserts the import before the
first match of the keyword regex and, when there is none, skips silently. -/
theorem c8_amended :
    (∀ imp c, containsSub imp c = false → importMatches c = [] →
        importStep imp c = c) ∧
    (∀ imp c n, containsSub imp c = false → importMatches c = [] →
        findDeclIdx c = some n →
        legacyImportStep imp c = c.take n ++ '\n' :: imp ++ c.drop n) ∧
    (∀ imp c, containsSub imp c = false → importMatches c = [] →
        findDeclIdx c = none → legacyImportStep imp c = c) := by
  refine ⟨?_, ?_, ?_⟩
  · intro imp c h1 h2
    unfold importStep
    rw [h1, h2]
    rfl
  · intro imp c n h1 h2 h3
    unfold legacyImportStep
    rw [h1, h2, h3]
    rfl
  · intro imp c h1 h2 h3
    unfold legacyImportStep
    rw [h1, h2, h3]
    rfl

/-- Witness for c8_amended: the legacy fallback inserts the import line
before the class keyword of the counterexample file. -/
theorem c8_amended_witness :
    legacyImportStep c8imp c8file = c8file.take 7 ++ '\n' :: c8imp ++ c8file.drop 7 :=
  c8_amended.2.1 c8imp c8file 7 (by decide) (by decide) (by decide)

theorem occB_ge_length {p s : List Char} {m : Nat} (hp : p ≠ []) (h : s.length ≤ m) :
    occB p s m = false := by
  have hd : s.drop m = [] := List.drop_eq_nil_of_le h
  rw [occB, hd]
  cases p with
  | nil => exact absurd rfl hp
  | cons a as => rfl

theorem no_occ_char_of_not_mem {ch : Char} {x y : List Char} (hx : ch ∉ x) :
    ∀ i, i < x.length → occB [ch] (x ++ y) i = false := by
  intro i hi
  have hlen : i < (x ++ y).length := by
    simp only [List.length_append]
    omega
  rw [Bool.eq_false_iff]
  intro hc
  have := (occ_char_at hlen).mp hc
  rw [List.getElem_append_left hi] at this
  exact hx (this ▸ List.getElem_mem hi)

/-- C6: the auto-discovery registration insertion places the new line
immediately after the semicolon of the last existing setter call and keeps
everything else, in particular the two existing calls and their order. The
body is given as header b1, a first call (setter prefix, arguments m1, a
semicolon), middle b2, a second call (arguments m2, semicolon), trailer b3;
the hypotheses say the setter prefix and the second call's arguments hold no
semicolon and that the displayed second call is the last occurrence of the
setter prefix. -/
theorem c6_insert_after_last_call
    (setPfx reg b1 m1 b2 m2 b3 : List Char)
    (hp0 : setPfx ≠ [])
    (hsp : (';' : Char) ∉ setPfx)
    (hsm : (';' : Char) ∉ m2)
    (hlast : containsSub setPfx (setPfx.drop 1 ++ m2 ++ [';'] ++ b3) = false) :
    regNewBody setPfx reg
        (b1 ++ setPfx ++ m1 ++ [';'] ++ b2 ++ setPfx ++ m2 ++ [';'] ++ b3)
      = b1 ++ setPfx ++ m1 ++ [';'] ++ b2 ++ setPfx ++ m2 ++ [';'] ++ nl4 ++ reg ++ b3 := by
  set A : List Char := b1 ++ setPfx ++ m1 ++ [';'] ++ b2 with hA
  set body : List Char := b1 ++ setPfx ++ m1 ++ [';'] ++ b2 ++ setPfx ++ m2 ++ [';'] ++ b3
    with hbdef
  have hsplit : body = A ++ (setPfx ++ (m2 ++ (';' :: b3))) := by
    simp [hbdef, hA, List.append_assoc]
  have hdropA : body.drop A.length = setPfx ++ (m2 ++ (';' :: b3)) := by
    rw [hsplit, List.drop_left]
  have hocc : occB setPfx body A.length = true := by
    rw [occB, hdropA]
    exact isPrefOf_iff.mpr ⟨m2 ++ (';' :: b3), rfl⟩
  have hafter : ∀ m, A.length < m → occB setPfx body m = false := by
    intro m hm
    by_cases hlen : body.length ≤ m
    · exact occB_ge_length hp0 hlen
    · obtain ⟨k, rfl⟩ : ∃ k, m = A.length + 1 + k := ⟨m - A.length - 1, by omega⟩
      have hdrop1 : body.drop (A.length + 1) = setPfx.drop 1 ++ (m2 ++ (';' :: b3)) := by
        rw [hsplit]
        cases setPfx with
        | nil => exact absurd rfl hp0
        | cons a as =>
          rw [show A ++ (a :: as ++ (m2 ++ (';' :: b3)))
              = (A ++ [a]) ++ (as ++ (m2 ++ (';' :: b3))) by simp]
          rw [show A.length + 1 = (A ++ [a]).length by simp]
          rw [List.drop_left]
          rfl
      have hk := containsSub_none_occ hlast k
      rw [occB, show A.length + 1 + k = (A.length + 1) + k from rfl, ← List.drop_drop,
        hdrop1]
      rw [occB] at hk
      simpa [List.append_assoc] using hk
  have hfindLast : subFindLast setPfx body = some A.length :=
    subFindLast_eq_of hp0 hocc hafter
  have hsemi : subFind [';'] (body.drop A.length) = some (setPfx.length + m2.length) := by
    rw [hdropA]
    apply subFind_eq_of
    · rw [occB, show setPfx ++ (m2 ++ (';' :: b3)) = (setPfx ++ m2) ++ (';' :: b3) by simp,
        show setPfx.length + m2.length = (setPfx ++ m2).length by simp, List.drop_left]
      simp [isPrefOf]
    · intro i hi
      have hnm : (';' : Char) ∉ setPfx ++ m2 := by
        simp only [List.mem_append]
        rintro (h | h)
        · exact hsp h
        · exact hsm h
      have hi' := @no_occ_char_of_not_mem _ _ (';' :: b3) hnm i
        (by simpa using hi)
      simpa [List.append_assoc] using hi'
  have hB : body = (A ++ (setPfx ++ (m2 ++ [';']))) ++ b3 := by
    simp [hbdef, hA, List.append_assoc]
  have hBlen : (A ++ (setPfx ++ (m2 ++ [';']))).length
      = A.length + (setPfx.length + m2.length) + 1 := by
    simp [List.length_append]
    omega
  have htake : body.take (A.length + (setPfx.length + m2.length) + 1)
      = A ++ (setPfx ++ (m2 ++ [';'])) := by
    rw [hB]
    exact List.take_left' hBlen
  have hdrop : body.drop (A.length + (setPfx.length + m2.length) + 1) = b3 := by
    rw [hB]
    exact List.drop_left' hBlen
  unfold regNewBody
  simp only [hfindLast, hsemi, htake, hdrop]
  simp [hA, List.append_assoc]

/-- Witness for c6_insert_after_last_call on the spec's own two-call
example. -/
theorem c6_witness :
    regNewBody setTools "this.tools.set('c', h);".toList
        ("\n    ".toList ++ setTools ++ "'a', f)".toList ++ [';']
          ++ "\n    ".toList ++ setTools ++ "'b', g)".toList ++ [';'] ++ "\n  ".toList)
      = "\n    ".toList ++ setTools ++ "'a', f)".toList ++ [';'] ++ "\n    ".toList
          ++ setTools ++ "'b', g)".toList ++ [';'] ++ nl4
          ++ "this.tools.set('c', h);".toList ++ "\n  ".toList :=
  c6_insert_after_last_call setTools "this.tools.set('c', h);".toList
    "\n    ".toList "'a', f)".toList "\n    ".toList "'b', g)".toList "\n  ".toList
    (by decide) (by decide) (by decide) (by decide)

theorem isPrefOf_append_same (a x y : List Char) :
    isPrefOf (a ++ x) (a ++ y) = isPrefOf x y := by
  induction a with
  | nil => rfl
  | cons c rest ih => simpa [isPrefOf] using ih

theorem pjoin_assoc (a b c : List Char) : pjoin (pjoin a b) c = pjoin a (b ++ '/' :: c) := by
  simp [pjoin, List.append_assoc]

theorem pjoin_ne_of_ne {a x y : List Char} (h : x ≠ y) : pjoin a x ≠ pjoin a y := by
  intro he
  rw [pjoin, pjoin] at he
  have := List.append_cancel_left he
  simp only [List.cons.injEq] at this
  exact h this.2

theorem relativeL_inside (base x : List Char) : relativeL base (pjoin base x) = x := by
  rw [relativeL, pjoin]
  have hp : isPrefOf (base ++ ['/']) (base ++ '/' :: x) = true := by
    refine isPrefOf_iff.mpr ⟨x, by simp⟩
  rw [if_pos hp]
  rw [show base ++ '/' :: x = (base ++ ['/']) ++ x by simp]
  exact List.drop_left' (by simp)

theorem splitSlash_append {ts rest : List Char} (hts : ('/' : Char) ∉ ts) :
    splitSlash (ts ++ '/' :: rest) = ts :: splitSlash rest := by
  induction ts with
  | nil => simp [splitSlash]
  | cons c cs ih =>
    have hc : c ≠ '/' := by
      intro h
      exact hts (h ▸ List.mem_cons_self c cs)
    have hcs : ('/' : Char) ∉ cs := fun h => hts (List.mem_cons_of_mem c h)
    simp only [List.cons_append, splitSlash, if_neg hc, List.append_eq]
    rw [ih hcs]

theorem lookupW_set_ne {w : World} {p q : List Char} {d : FileData} (h : p ≠ q) :
    lookupW (setFileW w p d) q = lookupW w q := by
  simp [setFileW, lookupW, h]

theorem pathExistsW_set_ne {w : World} {p q : List Char} {d : FileData}
    (hne : p ≠ q) (hpre : isPrefOf (q ++ ['/']) p = false) :
    pathExistsW (setFileW w p d) q = pathExistsW w q := by
  simp [pathExistsW, setFileW, lookupW, hne, Ne.symm hne, hpre]

/-- A path below the backup directory never coincides with, and never is an
ancestor-descendant of, a path below the source root. -/
theorem backup_src_apart (pp ts x y : List Char) :
    pjoin (pjoin (pjoin pp ".mcp-backups".toList) ts) x
        ≠ pjoin (pjoin pp "src".toList) y ∧
    isPrefOf (pjoin (pjoin pp "src".toList) y ++ ['/'])
        (pjoin (pjoin (pjoin pp ".mcp-backups".toList) ts) x) = false := by
  have hbp : pjoin (pjoin (pjoin pp ".mcp-backups".toList) ts) x
      = pp ++ '/' :: (".mcp-backups".toList ++ '/' :: (ts ++ '/' :: x)) := by
    simp [pjoin, List.append_assoc]
  have hsp : pjoin (pjoin pp "src".toList) y
      = pp ++ '/' :: ("src".toList ++ '/' :: y) := by
    simp [pjoin, List.append_assoc]
  constructor
  · rw [hbp, hsp]
    intro he
    have h2 := List.append_cancel_left he
    simp only [List.cons.injEq] at h2
    have h3 : ('.' : Char) :: ("mcp-backups".toList ++ '/' :: (ts ++ '/' :: x))
        = 's' :: ("rc".toList ++ '/' :: y) := h2.2
    simp at h3
  · rw [hbp, hsp]
    rw [show pp ++ '/' :: ("src".toList ++ '/' :: y) ++ ['/']
        = (pp ++ ['/']) ++ ("src".toList ++ '/' :: y ++ ['/']) by simp]
    rw [show pp ++ '/' :: (".mcp-backups".toList ++ '/' :: (ts ++ '/' :: x))
        = (pp ++ ['/']) ++ (".mcp-backups".toList ++ '/' :: (ts ++ '/' :: x)) by simp]
    rw [isPrefOf_append_same]
    rfl

theorem lookupW_set_self {w : World} {p : List Char} {d : FileData} :
    lookupW (setFileW w p d) p = some d := by
  simp [setFileW, lookupW]

/-- C5: restoring immediately after a successful backup puts every tracked
registry file back byte-identical, writing each backup copy to exactly the
path it was taken from; untracked (missing) registry paths stay untouched.
The hypotheses say the context has the shape produced by detection (source
root directly under the project path), the timestamp directory name holds
no separator, and the registry paths are files rather than directories. -/
theorem c5_backup_restore_roundtrip
    (ctx : ProjectContext) (ts : List Char) (w : World)
    (hsrc : ctx.srcPath = pjoin ctx.projectPath "src".toList)
    (hts : ('/' : Char) ∉ ts)
    (hfile : ∀ f ∈ registryFilePaths ctx, pathExistsW w f = (lookupW w f).isSome)
    (paths : List (List Char)) (st1 : St)
    (hbk : backupRegistryFilesM (fun _ => true) ctx ts ⟨w, 0⟩ = .ok (paths, st1)) :
    (restoreLoop (fun _ => true) ctx paths st1).2 = true ∧
    ∀ f ∈ registryFilePaths ctx,
      lookupW ((restoreLoop (fun _ => true) ctx paths st1).1).world f = lookupW w f := by
  obtain ⟨iv, pp, sp, pn, pj⟩ := ctx
  simp only at hsrc
  subst hsrc
  have hra1 : relativeL (pjoin pp "src".toList) (pjoin (pjoin (pjoin pp "src".toList) "tools".toList) "index.ts".toList) = "tools".toList ++ '/' :: "index.ts".toList := by
    rw [pjoin_assoc (pjoin pp "src".toList) "tools".toList "index.ts".toList]
    exact relativeL_inside _ _
  have hra2 : relativeL (pjoin pp "src".toList) (pjoin (pjoin (pjoin pp "src".toList) "resources".toList) "index.ts".toList) = "resources".toList ++ '/' :: "index.ts".toList := by
    rw [pjoin_assoc (pjoin pp "src".toList) "resources".toList "index.ts".toList]
    exact relativeL_inside _ _
  have hra3 : relativeL (pjoin pp "src".toList) (pjoin (pjoin (pjoin pp "src".toList) "prompts".toList) "index.ts".toList) = "prompts".toList ++ '/' :: "index.ts".toList := by
    rw [pjoin_assoc (pjoin pp "src".toList) "prompts".toList "index.ts".toList]
    exact relativeL_inside _ _
  have hne11 : pjoin (pjoin (pjoin pp ".mcp-backups".toList) ts) ("tools".toList ++ '/' :: "index.ts".toList) ≠ pjoin (pjoin (pjoin pp "src".toList) "tools".toList) "index.ts".toList := by
    rw [pjoin_assoc (pjoin pp "src".toList) "tools".toList "index.ts".toList]
    exact (backup_src_apart pp ts _ _).1
  have hpre11 : isPrefOf ((pjoin (pjoin (pjoin pp "src".toList) "tools".toList) "index.ts".toList) ++ ['/']) (pjoin (pjoin (pjoin pp ".mcp-backups".toList) ts) ("tools".toList ++ '/' :: "index.ts".toList)) = false := by
    rw [pjoin_assoc (pjoin pp "src".toList) "tools".toList "index.ts".toList]
    exact (backup_src_apart pp ts _ _).2
  have hnes11 : pjoin (pjoin (pjoin pp "src".toList) "tools".toList) "index.ts".toList ≠ pjoin (pjoin (pjoin pp ".mcp-backups".toList) ts) ("tools".toList ++ '/' :: "index.ts".toList) := Ne.symm hne11
  have hne12 : pjoin (pjoin (pjoin pp ".mcp-backups".toList) ts) ("tools".toList ++ '/' :: "index.ts".toList) ≠ pjoin (pjoin (pjoin pp "src".toList) "resources".toList) "index.ts".toList := by
    rw [pjoin_assoc (pjoin pp "src".toList) "resources".toList "index.ts".toList]
    exact (backup_src_apart pp ts _ _).1
  have hpre12 : isPrefOf ((pjoin (pjoin (pjoin pp "src".toList) "resources".toList) "index.ts".toList) ++ ['/']) (pjoin (pjoin (pjoin pp ".mcp-backups".toList) ts) ("tools".toList ++ '/' :: "index.ts".toList)) = false := by
    rw [pjoin_assoc (pjoin pp "src".toList) "resources".toList "index.ts".toList]
    exact (backup_src_apart pp ts _ _).2
  have hnes12 : pjoin (pjoin (pjoin pp "src".toList) "resources".toList) "index.ts".toList ≠ pjoin (pjoin (pjoin pp ".mcp-backups".toList) ts) ("tools".toList ++ '/' :: "index.ts".toList) := Ne.symm hne12
  have hne13 : pjoin (pjoin (pjoin pp ".mcp-backups".toList) ts) ("tools".toList ++ '/' :: "index.ts".toList) ≠ pjoin (pjoin (pjoin pp "src".toList) "prompts".toList) "index.ts".toList := by
    rw [pjoin_assoc (pjoin pp "src".toList) "prompts".toList "index.ts".toList]
    exact (backup_src_apart pp ts _ _).1
  have hpre13 : isPrefOf ((pjoin (pjoin (pjoin pp "src".toList) "prompts".toList) "index.ts".toList) ++ ['/']) (pjoin (pjoin (pjoin pp ".mcp-backups".toList) ts) ("tools".toList ++ '/' :: "index.ts".toList)) = false := by
    rw [pjoin_assoc (pjoin pp "src".toList) "prompts".toList "index.ts".toList]
    exact (backup_src_apart pp ts _ _).2
  have hnes13 : pjoin (pjoin (pjoin pp "src".toList) "prompts".toList) "index.ts".toList ≠ pjoin (pjoin (pjoin pp ".mcp-backups".toList) ts) ("tools".toList ++ '/' :: "index.ts".toList) := Ne.symm hne13
  have hne21 : pjoin (pjoin (pjoin pp ".mcp-backups".toList) ts) ("resources".toList ++ '/' :: "index.ts".toList) ≠ pjoin (pjoin (pjoin pp "src".toList) "tools".toList) "index.ts".toList := by
    rw [pjoin_assoc (pjoin pp "src".toList) "tools".toList "index.ts".toList]
    exact (backup_src_apart pp ts _ _).1
  have hpre21 : isPrefOf ((pjoin (pjoin (pjoin pp "src".toList) "tools".toList) "index.ts".toList) ++ ['/']) (pjoin (pjoin (pjoin pp ".mcp-backups".toList) ts) ("resources".toList ++ '/' :: "index.ts".toList)) = false := by
    rw [pjoin_assoc (pjoin pp "src".toList) "tools".toList "index.ts".toList]
    exact (backup_src_apart pp ts _ _).2
  have hnes21 : pjoin (pjoin (pjoin pp "src".toList) "tools".toList) "index.ts".toList ≠ pjoin (pjoin (pjoin pp ".mcp-backups".toList) ts) ("resources".toList ++ '/' :: "index.ts".toList) := Ne.symm hne21
  have hne22 : pjoin (pjoin (pjoin pp ".mcp-backups".toList) ts) ("resources".toList ++ '/' :: "index.ts".toList) ≠ pjoin (pjoin (pjoin pp "src".toList) "resources".toList) "index.ts".toList := by
    rw [pjoin_assoc (pjoin pp "src".toList) "resources".toList "index.ts".toList]
    exact (backup_src_apart pp ts _ _).1
  have hpre22 : isPrefOf ((pjoin (pjoin (pjoin pp "src".toList) "resources".toList) "index.ts".toList) ++ ['/']) (pjoin (pjoin (pjoin pp ".mcp-backups".toList) ts) ("resources".toList ++ '/' :: "index.ts".toList)) = false := by
    rw [pjoin_assoc (pjoin pp "src".toList) "resources".toList "index.ts".toList]
    exact (backup_src_apart pp ts _ _).2
  have hnes22 : pjoin (pjoin (pjoin pp "src".toList) "resources".toList) "index.ts".toList ≠ pjoin (pjoin (pjoin pp ".mcp-backups".toList) ts) ("resources".toList ++ '/' :: "index.ts".toList) := Ne.symm hne22
  have hne23 : pjoin (pjoin (pjoin pp ".mcp-backups".toList) ts) ("resources".toList ++ '/' :: "index.ts".toList) ≠ pjoin (pjoin (pjoin pp "src".toList) "prompts".toList) "index.ts".toList := by
    rw [pjoin_assoc (pjoin pp "src".toList) "prompts".toList "index.ts".toList]
    exact (backup_src_apart pp ts _ _).1
  have hpre23 : isPrefOf ((pjoin (pjoin (pjoin pp "src".toList) "prompts".toList) "index.ts".toList) ++ ['/']) (pjoin (pjoin (pjoin pp ".mcp-backups".toList) ts) ("resources".toList ++ '/' :: "index.ts".toList)) = false := by
    rw [pjoin_assoc (pjoin pp "src".toList) "prompts".toList "index.ts".toList]
    exact (backup_src_apart pp ts _ _).2
  have hnes23 : pjoin (pjoin (pjoin pp "src".toList) "prompts".toList) "index.ts".toList ≠ pjoin (pjoin (pjoin pp ".mcp-backups".toList) ts) ("resources".toList ++ '/' :: "index.ts".toList) := Ne.symm hne23
  have hne31 : pjoin (pjoin (pjoin pp ".mcp-backups".toList) ts) ("prompts".toList ++ '/' :: "index.ts".toList) ≠ pjoin (pjoin (pjoin pp "src".toList) "tools".toList) "index.ts".toList := by
    rw [pjoin_assoc (pjoin pp "src".toList) "tools".toList "index.ts".toList]
    exact (backup_src_apart pp ts _ _).1
  have hpre31 : isPrefOf ((pjoin (pjoin (pjoin pp "src".toList) "tools".toList) "index.ts".toList) ++ ['/']) (pjoin (pjoin (pjoin pp ".mcp-backups".toList) ts) ("prompts".toList ++ '/' :: "index.ts".toList)) = false := by
    rw [pjoin_assoc (pjoin pp "src".toList) "tools".toList "index.ts".toList]
    exact (backup_src_apart pp ts _ _).2
  have hnes31 : pjoin (pjoin (pjoin pp "src".toList) "tools".toList) "index.ts".toList ≠ pjoin (pjoin (pjoin pp ".mcp-backups".toList) ts) ("prompts".toList ++ '/' :: "index.ts".toList) := Ne.symm hne31
  have hne32 : pjoin (pjoin (pjoin pp ".mcp-backups".toList) ts) ("prompts".toList ++ '/' :: "index.ts".toList) ≠ pjoin (pjoin (pjoin pp "src".toList) "resources".toList) "index.ts".toList := by
    rw [pjoin_assoc (pjoin pp "src".toList) "resources".toList "index.ts".toList]
    exact (backup_src_apart pp ts _ _).1
  have hpre32 : isPrefOf ((pjoin (pjoin (pjoin pp "src".toList) "resources".toList) "index.ts".toList) ++ ['/']) (pjoin (pjoin (pjoin pp ".mcp-backups".toList) ts) ("prompts".toList ++ '/' :: "index.ts".toList)) = false := by
    rw [pjoin_assoc (pjoin pp "src".toList) "resources".toList "index.ts".toList]
    exact (backup_src_apart pp ts _ _).2
  have hnes32 : pjoin (pjoin (pjoin pp "src".toList) "resources".toList) "index.ts".toList ≠ pjoin (pjoin (pjoin pp ".mcp-backups".toList) ts) ("prompts".toList ++ '/' :: "index.ts".toList) := Ne.symm hne32
  have hne33 : pjoin (pjoin (pjoin pp ".mcp-backups".toList) ts) ("prompts".toList ++ '/' :: "index.ts".toList) ≠ pjoin (pjoin (pjoin pp "src".toList) "prompts".toList) "index.ts".toList := by
    rw [pjoin_assoc (pjoin pp "src".toList) "prompts".toList "index.ts".toList]
    exact (backup_src_apart pp ts _ _).1
  have hpre33 : isPrefOf ((pjoin (pjoin (pjoin pp "src".toList) "prompts".toList) "index.ts".toList) ++ ['/']) (pjoin (pjoin (pjoin pp ".mcp-backups".toList) ts) ("prompts".toList ++ '/' :: "index.ts".toList)) = false := by
    rw [pjoin_assoc (pjoin pp "src".toList) "prompts".toList "index.ts".toList]
    exact (backup_src_apart pp ts _ _).2
  have hnes33 : pjoin (pjoin (pjoin pp "src".toList) "prompts".toList) "index.ts".toList ≠ pjoin (pjoin (pjoin pp ".mcp-backups".toList) ts) ("prompts".toList ++ '/' :: "index.ts".toList) := Ne.symm hne33
  have hff12 : pjoin (pjoin (pjoin pp "src".toList) "tools".toList) "index.ts".toList ≠ pjoin (pjoin (pjoin pp "src".toList) "resources".toList) "index.ts".toList := by
    rw [pjoin_assoc (pjoin pp "src".toList) "tools".toList "index.ts".toList,
      pjoin_assoc (pjoin pp "src".toList) "resources".toList "index.ts".toList]
    exact pjoin_ne_of_ne (by decide)
  have hbb12 : pjoin (pjoin (pjoin pp ".mcp-backups".toList) ts) ("tools".toList ++ '/' :: "index.ts".toList) ≠ pjoin (pjoin (pjoin pp ".mcp-backups".toList) ts) ("resources".toList ++ '/' :: "index.ts".toList) := pjoin_ne_of_ne (by decide)
  have hff13 : pjoin (pjoin (pjoin pp "src".toList) "tools".toList) "index.ts".toList ≠ pjoin (pjoin (pjoin pp "src".toList) "prompts".toList) "index.ts".toList := by
    rw [pjoin_assoc (pjoin pp "src".toList) "tools".toList "index.ts".toList,
      pjoin_assoc (pjoin pp "src".toList) "prompts".toList "index.ts".toList]
    exact pjoin_ne_of_ne (by decide)
  have hbb13 : pjoin (pjoin (pjoin pp ".mcp-backups".toList) ts) ("tools".toList ++ '/' :: "index.ts".toList) ≠ pjoin (pjoin (pjoin pp ".mcp-backups".toList) ts) ("prompts".toList ++ '/' :: "index.ts".toList) := pjoin_ne_of_ne (by decide)
  have hff21 : pjoin (pjoin (pjoin pp "src".toList) "resources".toList) "index.ts".toList ≠ pjoin (pjoin (pjoin pp "src".toList) "tools".toList) "index.ts".toList := by
    rw [pjoin_assoc (pjoin pp "src".toList) "resources".toList "index.ts".toList,
      pjoin_assoc (pjoin pp "src".toList) "tools".toList "index.ts".toList]
    exact pjoin_ne_of_ne (by decide)
  have hbb21 : pjoin (pjoin (pjoin pp ".mcp-backups".toList) ts) ("resources".toList ++ '/' :: "index.ts".toList) ≠ pjoin (pjoin (pjoin pp ".mcp-backups".toList) ts) ("tools".toList ++ '/' :: "index.ts".toList) := pjoin_ne_of_ne (by decide)
  have hff23 : pjoin (pjoin (pjoin pp "src".toList) "resources".toList) "index.ts".toList ≠ pjoin (pjoin (pjoin pp "src".toList) "prompts".toList) "index.ts".toList := by
    rw [pjoin_assoc (pjoin pp "src".toList) "resources".toList "index.ts".toList,
      pjoin_assoc (pjoin pp "src".toList) "prompts".toList "index.ts".toList]
    exact pjoin_ne_of_ne (by decide)
  have hbb23 : pjoin (pjoin (pjoin pp ".mcp-backups".toList) ts) ("resources".toList ++ '/' :: "index.ts".toList) ≠ pjoin (pjoin (pjoin pp ".mcp-backups".toList) ts) ("prompts".toList ++ '/' :: "index.ts".toList) := pjoin_ne_of_ne (by decide)
  have hff31 : pjoin (pjoin (pjoin pp "src".toList) "prompts".toList) "index.ts".toList ≠ pjoin (pjoin (pjoin pp "src".toList) "tools".toList) "index.ts".toList := by
    rw [pjoin_assoc (pjoin pp "src".toList) "prompts".toList "index.ts".toList,
      pjoin_assoc (pjoin pp "src".toList) "tools".toList "index.ts".toList]
    exact pjoin_ne_of_ne (by decide)
  have hbb31 : pjoin (pjoin (pjoin pp ".mcp-backups".toList) ts) ("prompts".toList ++ '/' :: "index.ts".toList) ≠ pjoin (pjoin (pjoin pp ".mcp-backups".toList) ts) ("tools".toList ++ '/' :: "index.ts".toList) := pjoin_ne_of_ne (by decide)
  have hff32 : pjoin (pjoin (pjoin pp "src".toList) "prompts".toList) "index.ts".toList ≠ pjoin (pjoin (pjoin pp "src".toList) "resources".toList) "index.ts".toList := by
    rw [pjoin_assoc (pjoin pp "src".toList) "prompts".toList "index.ts".toList,
      pjoin_assoc (pjoin pp "src".toList) "resources".toList "index.ts".toList]
    exact pjoin_ne_of_ne (by decide)
  have hbb32 : pjoin (pjoin (pjoin pp ".mcp-backups".toList) ts) ("prompts".toList ++ '/' :: "index.ts".toList) ≠ pjoin (pjoin (pjoin pp ".mcp-backups".toList) ts) ("resources".toList ++ '/' :: "index.ts".toList) := pjoin_ne_of_ne (by decide)
  have hrest1 : pjoin (pjoin pp "src".toList)
      (List.intercalate ['/'] ((splitSlash (relativeL (pjoin pp ".mcp-backups".toList)
        (pjoin (pjoin (pjoin pp ".mcp-backups".toList) ts) ("tools".toList ++ '/' :: "index.ts".toList)))).drop 1)) = pjoin (pjoin (pjoin pp "src".toList) "tools".toList) "index.ts".toList := by
    rw [pjoin_assoc (pjoin pp ".mcp-backups".toList) ts ("tools".toList ++ '/' :: "index.ts".toList), relativeL_inside,
      splitSlash_append hts]
    rw [show (((ts :: splitSlash ("tools".toList ++ '/' :: "index.ts".toList)).drop 1)) = splitSlash ("tools".toList ++ '/' :: "index.ts".toList) from rfl]
    rw [show List.intercalate ['/'] (splitSlash ("tools".toList ++ '/' :: "index.ts".toList)) = "tools".toList ++ '/' :: "index.ts".toList by decide]
    rw [pjoin_assoc (pjoin pp "src".toList) "tools".toList "index.ts".toList]
  have hrest2 : pjoin (pjoin pp "src".toList)
      (List.intercalate ['/'] ((splitSlash (relativeL (pjoin pp ".mcp-backups".toList)
        (pjoin (pjoin (pjoin pp ".mcp-backups".toList) ts) ("resources".toList ++ '/' :: "index.ts".toList)))).drop 1)) = pjoin (pjoin (pjoin pp "src".toList) "resources".toList) "index.ts".toList := by
    rw [pjoin_assoc (pjoin pp ".mcp-backups".toList) ts ("resources".toList ++ '/' :: "index.ts".toList), relativeL_inside,
      splitSlash_append hts]
    rw [show (((ts :: splitSlash ("resources".toList ++ '/' :: "index.ts".toList)).drop 1)) = splitSlash ("resources".toList ++ '/' :: "index.ts".toList) from rfl]
    rw [show List.intercalate ['/'] (splitSlash ("resources".toList ++ '/' :: "index.ts".toList)) = "resources".toList ++ '/' :: "index.ts".toList by decide]
    rw [pjoin_assoc (pjoin pp "src".toList) "resources".toList "index.ts".toList]
  have hrest3 : pjoin (pjoin pp "src".toList)
      (List.intercalate ['/'] ((splitSlash (relativeL (pjoin pp ".mcp-backups".toList)
        (pjoin (pjoin (pjoin pp ".mcp-backups".toList) ts) ("prompts".toList ++ '/' :: "index.ts".toList)))).drop 1)) = pjoin (pjoin (pjoin pp "src".toList) "prompts".toList) "index.ts".toList := by
    rw [pjoin_assoc (pjoin pp ".mcp-backups".toList) ts ("prompts".toList ++ '/' :: "index.ts".toList), relativeL_inside,
      splitSlash_append hts]
    rw [show (((ts :: splitSlash ("prompts".toList ++ '/' :: "index.ts".toList)).drop 1)) = splitSlash ("prompts".toList ++ '/' :: "index.ts".toList) from rfl]
    rw [show List.intercalate ['/'] (splitSlash ("prompts".toList ++ '/' :: "index.ts".toList)) = "prompts".toList ++ '/' :: "index.ts".toList by decide]
    rw [pjoin_assoc (pjoin pp "src".toList) "prompts".toList "index.ts".toList]
  have hpw1 : pathExistsW w (pjoin (pjoin (pjoin pp "src".toList) "tools".toList) "index.ts".toList) = (lookupW w (pjoin (pjoin (pjoin pp "src".toList) "tools".toList) "index.ts".toList)).isSome := by
    apply hfile
    simp [registryFilePaths]
  have hpw2 : pathExistsW w (pjoin (pjoin (pjoin pp "src".toList) "resources".toList) "index.ts".toList) = (lookupW w (pjoin (pjoin (pjoin pp "src".toList) "resources".toList) "index.ts".toList)).isSome := by
    apply hfile
    simp [registryFilePaths]
  have hpw3 : pathExistsW w (pjoin (pjoin (pjoin pp "src".toList) "prompts".toList) "index.ts".toList) = (lookupW w (pjoin (pjoin (pjoin pp "src".toList) "prompts".toList) "index.ts".toList)).isSome := by
    apply hfile
    simp [registryFilePaths]
  cases e1 : lookupW w (pjoin (pjoin (pjoin pp "src".toList) "tools".toList) "index.ts".toList) with
  | none =>
    cases e2 : lookupW w (pjoin (pjoin (pjoin pp "src".toList) "resources".toList) "index.ts".toList) with
    | none =>
      cases e3 : lookupW w (pjoin (pjoin (pjoin pp "src".toList) "prompts".toList) "index.ts".toList) with
      | none =>
      simp only [backupRegistryFilesM, registryFilePaths, backupLoop, opEnsure, opCopy,
        hra1, hra2, hra3, hpw1, hpw2, hpw3, e1, e2, e3,
        pathExistsW_set_ne hne11 hpre11, pathExistsW_set_ne hne12 hpre12, pathExistsW_set_ne hne13 hpre13, lookupW_set_ne hne11, lookupW_set_ne hne12, lookupW_set_ne hne13, pathExistsW_set_ne hne21 hpre21, pathExistsW_set_ne hne22 hpre22, pathExistsW_set_ne hne23 hpre23, lookupW_set_ne hne21, lookupW_set_ne hne22, lookupW_set_ne hne23, pathExistsW_set_ne hne31 hpre31, pathExistsW_set_ne hne32 hpre32, pathExistsW_set_ne hne33 hpre33, lookupW_set_ne hne31, lookupW_set_ne hne32, lookupW_set_ne hne33,
        lookupW_set_self,
        Option.isSome_some, Option.isSome_none, eq_self_iff_true, if_true, if_false,
        ite_true, ite_false, Bool.false_eq_true, reduceCtorEq] at hbk
      rw [Except.ok.injEq, Prod.mk.injEq] at hbk
      obtain ⟨rfl, rfl⟩ := hbk
      refine ⟨?_, ?_⟩
      · simp only [restoreLoop, opCopy, hrest1, hrest2, hrest3,
          lookupW_set_ne hnes11, lookupW_set_ne hnes12, lookupW_set_ne hnes13, lookupW_set_ne hnes21, lookupW_set_ne hnes22, lookupW_set_ne hnes23, lookupW_set_ne hnes31, lookupW_set_ne hnes32, lookupW_set_ne hnes33, lookupW_set_ne hbb12, lookupW_set_ne hbb13, lookupW_set_ne hbb21, lookupW_set_ne hbb23, lookupW_set_ne hbb31, lookupW_set_ne hbb32,
          lookupW_set_self,
          Option.isSome_some, Option.isSome_none, eq_self_iff_true, if_true, if_false,
        ite_true, ite_false, Bool.false_eq_true, reduceCtorEq]
      · intro f hf
        simp only [registryFilePaths, List.mem_cons, List.not_mem_nil, or_false] at hf
        rcases hf with rfl | rfl | rfl <;>
          simp only [restoreLoop, opCopy, hrest1, hrest2, hrest3,
            lookupW_set_ne hnes11, lookupW_set_ne hnes12, lookupW_set_ne hnes13, lookupW_set_ne hnes21, lookupW_set_ne hnes22, lookupW_set_ne hnes23, lookupW_set_ne hnes31, lookupW_set_ne hnes32, lookupW_set_ne hnes33, lookupW_set_ne hbb12, lookupW_set_ne hbb13, lookupW_set_ne hbb21, lookupW_set_ne hbb23, lookupW_set_ne hbb31, lookupW_set_ne hbb32,
            pathExistsW_set_ne hne11 hpre11, pathExistsW_set_ne hne12 hpre12, pathExistsW_set_ne hne13 hpre13, lookupW_set_ne hne11, lookupW_set_ne hne12, lookupW_set_ne hne13, pathExistsW_set_ne hne21 hpre21, pathExistsW_set_ne hne22 hpre22, pathExistsW_set_ne hne23 hpre23, lookupW_set_ne hne21, lookupW_set_ne hne22, lookupW_set_ne hne23, pathExistsW_set_ne hne31 hpre31, pathExistsW_set_ne hne32 hpre32, pathExistsW_set_ne hne33 hpre33, lookupW_set_ne hne31, lookupW_set_ne hne32, lookupW_set_ne hne33,
            lookupW_set_self, e1, e2, e3,
            lookupW_set_ne hff12, lookupW_set_ne hff13, lookupW_set_ne hff21, lookupW_set_ne hff23, lookupW_set_ne hff31, lookupW_set_ne hff32,
            lookupW_set_ne hne11, lookupW_set_ne hne12, lookupW_set_ne hne13, lookupW_set_ne hne21, lookupW_set_ne hne22, lookupW_set_ne hne23, lookupW_set_ne hne31, lookupW_set_ne hne32, lookupW_set_ne hne33,
            Option.isSome_some, Option.isSome_none, eq_self_iff_true, if_true, if_false,
        ite_true, ite_false, Bool.false_eq_true, reduceCtorEq]
      | some d3 =>
      simp only [backupRegistryFilesM, registryFilePaths, backupLoop, opEnsure, opCopy,
        hra1, hra2, hra3, hpw1, hpw2, hpw3, e1, e2, e3,
        pathExistsW_set_ne hne11 hpre11, pathExistsW_set_ne hne12 hpre12, pathExistsW_set_ne hne13 hpre13, lookupW_set_ne hne11, lookupW_set_ne hne12, lookupW_set_ne hne13, pathExistsW_set_ne hne21 hpre21, pathExistsW_set_ne hne22 hpre22, pathExistsW_set_ne hne23 hpre23, lookupW_set_ne hne21, lookupW_set_ne hne22, lookupW_set_ne hne23, pathExistsW_set_ne hne31 hpre31, pathExistsW_set_ne hne32 hpre32, pathExistsW_set_ne hne33 hpre33, lookupW_set_ne hne31, lookupW_set_ne hne32, lookupW_set_ne hne33,
        lookupW_set_self,
        Option.isSome_some, Option.isSome_none, eq_self_iff_true, if_true, if_false,
        ite_true, ite_false, Bool.false_eq_true, reduceCtorEq] at hbk
      rw [Except.ok.injEq, Prod.mk.injEq] at hbk
      obtain ⟨rfl, rfl⟩ := hbk
      refine ⟨?_, ?_⟩
      · simp only [restoreLoop, opCopy, hrest1, hrest2, hrest3,
          lookupW_set_ne hnes11, lookupW_set_ne hnes12, lookupW_set_ne hnes13, lookupW_set_ne hnes21, lookupW_set_ne hnes22, lookupW_set_ne hnes23, lookupW_set_ne hnes31, lookupW_set_ne hnes32, lookupW_set_ne hnes33, lookupW_set_ne hbb12, lookupW_set_ne hbb13, lookupW_set_ne hbb21, lookupW_set_ne hbb23, lookupW_set_ne hbb31, lookupW_set_ne hbb32,
          lookupW_set_self,
          Option.isSome_some, Option.isSome_none, eq_self_iff_true, if_true, if_false,
        ite_true, ite_false, Bool.false_eq_true, reduceCtorEq]
      · intro f hf
        simp only [registryFilePaths, List.mem_cons, List.not_mem_nil, or_false] at hf
        rcases hf with rfl | rfl | rfl <;>
          simp only [restoreLoop, opCopy, hrest1, hrest2, hrest3,
            lookupW_set_ne hnes11, lookupW_set_ne hnes12, lookupW_set_ne hnes13, lookupW_set_ne hnes21, lookupW_set_ne hnes22, lookupW_set_ne hnes23, lookupW_set_ne hnes31, lookupW_set_ne hnes32, lookupW_set_ne hnes33, lookupW_set_ne hbb12, lookupW_set_ne hbb13, lookupW_set_ne hbb21, lookupW_set_ne hbb23, lookupW_set_ne hbb31, lookupW_set_ne hbb32,
            pathExistsW_set_ne hne11 hpre11, pathExistsW_set_ne hne12 hpre12, pathExistsW_set_ne hne13 hpre13, lookupW_set_ne hne11, lookupW_set_ne hne12, lookupW_set_ne hne13, pathExistsW_set_ne hne21 hpre21, pathExistsW_set_ne hne22 hpre22, pathExistsW_set_ne hne23 hpre23, lookupW_set_ne hne21, lookupW_set_ne hne22, lookupW_set_ne hne23, pathExistsW_set_ne hne31 hpre31, pathExistsW_set_ne hne32 hpre32, pathExistsW_set_ne hne33 hpre33, lookupW_set_ne hne31, lookupW_set_ne hne32, lookupW_set_ne hne33,
            lookupW_set_self, e1, e2, e3,
            lookupW_set_ne hff12, lookupW_set_ne hff13, lookupW_set_ne hff21, lookupW_set_ne hff23, lookupW_set_ne hff31, lookupW_set_ne hff32,
            lookupW_set_ne hne11, lookupW_set_ne hne12, lookupW_set_ne hne13, lookupW_set_ne hne21, lookupW_set_ne hne22, lookupW_set_ne hne23, lookupW_set_ne hne31, lookupW_set_ne hne32, lookupW_set_ne hne33,
            Option.isSome_some, Option.isSome_none, eq_self_iff_true, if_true, if_false,
        ite_true, ite_false, Bool.false_eq_true, reduceCtorEq]
    | some d2 =>
      cases e3 : lookupW w (pjoin (pjoin (pjoin pp "src".toList) "prompts".toList) "index.ts".toList) with
      | none =>
      simp only [backupRegistryFilesM, registryFilePaths, backupLoop, opEnsure, opCopy,
        hra1, hra2, hra3, hpw1, hpw2, hpw3, e1, e2, e3,
        pathExistsW_set_ne hne11 hpre11, pathExistsW_set_ne hne12 hpre12, pathExistsW_set_ne hne13 hpre13, lookupW_set_ne hne11, lookupW_set_ne hne12, lookupW_set_ne hne13, pathExistsW_set_ne hne21 hpre21, pathExistsW_set_ne hne22 hpre22, pathExistsW_set_ne hne23 hpre23, lookupW_set_ne hne21, lookupW_set_ne hne22, lookupW_set_ne hne23, pathExistsW_set_ne hne31 hpre31, pathExistsW_set_ne hne32 hpre32, pathExistsW_set_ne hne33 hpre33, lookupW_set_ne hne31, lookupW_set_ne hne32, lookupW_set_ne hne33,
        lookupW_set_self,
        Option.isSome_some, Option.isSome_none, eq_self_iff_true, if_true, if_false,
        ite_true, ite_false, Bool.false_eq_true, reduceCtorEq] at hbk
      rw [Except.ok.injEq, Prod.mk.injEq] at hbk
      obtain ⟨rfl, rfl⟩ := hbk
      refine ⟨?_, ?_⟩
      · simp only [restoreLoop, opCopy, hrest1, hrest2, hrest3,
          lookupW_set_ne hnes11, lookupW_set_ne hnes12, lookupW_set_ne hnes13, lookupW_set_ne hnes21, lookupW_set_ne hnes22, lookupW_set_ne hnes23, lookupW_set_ne hnes31, lookupW_set_ne hnes32, lookupW_set_ne hnes33, lookupW_set_ne hbb12, lookupW_set_ne hbb13, lookupW_set_ne hbb21, lookupW_set_ne hbb23, lookupW_set_ne hbb31, lookupW_set_ne hbb32,
          lookupW_set_self,
          Option.isSome_some, Option.isSome_none, eq_self_iff_true, if_true, if_false,
        ite_true, ite_false, Bool.false_eq_true, reduceCtorEq]
      · intro f hf
        simp only [registryFilePaths, List.mem_cons, List.not_mem_nil, or_false] at hf
        rcases hf with rfl | rfl | rfl <;>
          simp only [restoreLoop, opCopy, hrest1, hrest2, hrest3,
            lookupW_set_ne hnes11, lookupW_set_ne hnes12, lookupW_set_ne hnes13, lookupW_set_ne hnes21, lookupW_set_ne hnes22, lookupW_set_ne hnes23, lookupW_set_ne hnes31, lookupW_set_ne hnes32, lookupW_set_ne hnes33, lookupW_set_ne hbb12, lookupW_set_ne hbb13, lookupW_set_ne hbb21, lookupW_set_ne hbb23, lookupW_set_ne hbb31, lookupW_set_ne hbb32,
            pathExistsW_set_ne hne11 hpre11, pathExistsW_set_ne hne12 hpre12, pathExistsW_set_ne hne13 hpre13, lookupW_set_ne hne11, lookupW_set_ne hne12, lookupW_set_ne hne13, pathExistsW_set_ne hne21 hpre21, pathExistsW_set_ne hne22 hpre22, pathExistsW_set_ne hne23 hpre23, lookupW_set_ne hne21, lookupW_set_ne hne22, lookupW_set_ne hne23, pathExistsW_set_ne hne31 hpre31, pathExistsW_set_ne hne32 hpre32, pathExistsW_set_ne hne33 hpre33, lookupW_set_ne hne31, lookupW_set_ne hne32, lookupW_set_ne hne33,
            lookupW_set_self, e1, e2, e3,
            lookupW_set_ne hff12, lookupW_set_ne hff13, lookupW_set_ne hff21, lookupW_set_ne hff23, lookupW_set_ne hff31, lookupW_set_ne hff32,
            lookupW_set_ne hne11, lookupW_set_ne hne12, lookupW_set_ne hne13, lookupW_set_ne hne21, lookupW_set_ne hne22, lookupW_set_ne hne23, lookupW_set_ne hne31, lookupW_set_ne hne32, lookupW_set_ne hne33,
            Option.isSome_some, Option.isSome_none, eq_self_iff_true, if_true, if_false,
        ite_true, ite_false, Bool.false_eq_true, reduceCtorEq]
      | some d3 =>
      simp only [backupRegistryFilesM, registryFilePaths, backupLoop, opEnsure, opCopy,
        hra1, hra2, hra3, hpw1, hpw2, hpw3, e1, e2, e3,
        pathExistsW_set_ne hne11 hpre11, pathExistsW_set_ne hne12 hpre12, pathExistsW_set_ne hne13 hpre13, lookupW_set_ne hne11, lookupW_set_ne hne12, lookupW_set_ne hne13, pathExistsW_set_ne hne21 hpre21, pathExistsW_set_ne hne22 hpre22, pathExistsW_set_ne hne23 hpre23, lookupW_set_ne hne21, lookupW_set_ne hne22, lookupW_set_ne hne23, pathExistsW_set_ne hne31 hpre31, pathExistsW_set_ne hne32 hpre32, pathExistsW_set_ne hne33 hpre33, lookupW_set_ne hne31, lookupW_set_ne hne32, lookupW_set_ne hne33,
        lookupW_set_self,
        Option.isSome_some, Option.isSome_none, eq_self_iff_true, if_true, if_false,
        ite_true, ite_false, Bool.false_eq_true, reduceCtorEq] at hbk
      rw [Except.ok.injEq, Prod.mk.injEq] at hbk
      obtain ⟨rfl, rfl⟩ := hbk
      refine ⟨?_, ?_⟩
      · simp only [restoreLoop, opCopy, hrest1, hrest2, hrest3,
          lookupW_set_ne hnes11, lookupW_set_ne hnes12, lookupW_set_ne hnes13, lookupW_set_ne hnes21, lookupW_set_ne hnes22, lookupW_set_ne hnes23, lookupW_set_ne hnes31, lookupW_set_ne hnes32, lookupW_set_ne hnes33, lookupW_set_ne hbb12, lookupW_set_ne hbb13, lookupW_set_ne hbb21, lookupW_set_ne hbb23, lookupW_set_ne hbb31, lookupW_set_ne hbb32,
          lookupW_set_self,
          Option.isSome_some, Option.isSome_none, eq_self_iff_true, if_true, if_false,
        ite_true, ite_false, Bool.false_eq_true, reduceCtorEq]
      · intro f hf
        simp only [registryFilePaths, List.mem_cons, List.not_mem_nil, or_false] at hf
        rcases hf with rfl | rfl | rfl <;>
          simp only [restoreLoop, opCopy, hrest1, hrest2, hrest3,
            lookupW_set_ne hnes11, lookupW_set_ne hnes12, lookupW_set_ne hnes13, lookupW_set_ne hnes21, lookupW_set_ne hnes22, lookupW_set_ne hnes23, lookupW_set_ne hnes31, lookupW_set_ne hnes32, lookupW_set_ne hnes33, lookupW_set_ne hbb12, lookupW_set_ne hbb13, lookupW_set_ne hbb21, lookupW_set_ne hbb23, lookupW_set_ne hbb31, lookupW_set_ne hbb32,
            pathExistsW_set_ne hne11 hpre11, pathExistsW_set_ne hne12 hpre12, pathExistsW_set_ne hne13 hpre13, lookupW_set_ne hne11, lookupW_set_ne hne12, lookupW_set_ne hne13, pathExistsW_set_ne hne21 hpre21, pathExistsW_set_ne hne22 hpre22, pathExistsW_set_ne hne23 hpre23, lookupW_set_ne hne21, lookupW_set_ne hne22, lookupW_set_ne hne23, pathExistsW_set_ne hne31 hpre31, pathExistsW_set_ne hne32 hpre32, pathExistsW_set_ne hne33 hpre33, lookupW_set_ne hne31, lookupW_set_ne hne32, lookupW_set_ne hne33,
            lookupW_set_self, e1, e2, e3,
            lookupW_set_ne hff12, lookupW_set_ne hff13, lookupW_set_ne hff21, lookupW_set_ne hff23, lookupW_set_ne hff31, lookupW_set_ne hff32,
            lookupW_set_ne hne11, lookupW_set_ne hne12, lookupW_set_ne hne13, lookupW_set_ne hne21, lookupW_set_ne hne22, lookupW_set_ne hne23, lookupW_set_ne hne31, lookupW_set_ne hne32, lookupW_set_ne hne33,
            Option.isSome_some, Option.isSome_none, eq_self_iff_true, if_true, if_false,
        ite_true, ite_false, Bool.false_eq_true, reduceCtorEq]
  | some d1 =>
    cases e2 : lookupW w (pjoin (pjoin (pjoin pp "src".toList) "resources".toList) "index.ts".toList) with
    | none =>
      cases e3 : lookupW w (pjoin (pjoin (pjoin pp "src".toList) "prompts".toList) "index.ts".toList) with
      | none =>
      simp only [backupRegistryFilesM, registryFilePaths, backupLoop, opEnsure, opCopy,
        hra1, hra2, hra3, hpw1, hpw2, hpw3, e1, e2, e3,
        pathExistsW_set_ne hne11 hpre11, pathExistsW_set_ne hne12 hpre12, pathExistsW_set_ne hne13 hpre13, lookupW_set_ne hne11, lookupW_set_ne hne12, lookupW_set_ne hne13, pathExistsW_set_ne hne21 hpre21, pathExistsW_set_ne hne22 hpre22, pathExistsW_set_ne hne23 hpre23, lookupW_set_ne hne21, lookupW_set_ne hne22, lookupW_set_ne hne23, pathExistsW_set_ne hne31 hpre31, pathExistsW_set_ne hne32 hpre32, pathExistsW_set_ne hne33 hpre33, lookupW_set_ne hne31, lookupW_set_ne hne32, lookupW_set_ne hne33,
        lookupW_set_self,
        Option.isSome_some, Option.isSome_none, eq_self_iff_true, if_true, if_false,
        ite_true, ite_false, Bool.false_eq_true, reduceCtorEq] at hbk
      rw [Except.ok.injEq, Prod.mk.injEq] at hbk
      obtain ⟨rfl, rfl⟩ := hbk
      refine ⟨?_, ?_⟩
      · simp only [restoreLoop, opCopy, hrest1, hrest2, hrest3,
          lookupW_set_ne hnes11, lookupW_set_ne hnes12, lookupW_set_ne hnes13, lookupW_set_ne hnes21, lookupW_set_ne hnes22, lookupW_set_ne hnes23, lookupW_set_ne hnes31, lookupW_set_ne hnes32, lookupW_set_ne hnes33, lookupW_set_ne hbb12, lookupW_set_ne hbb13, lookupW_set_ne hbb21, lookupW_set_ne hbb23, lookupW_set_ne hbb31, lookupW_set_ne hbb32,
          lookupW_set_self,
          Option.isSome_some, Option.isSome_none, eq_self_iff_true, if_true, if_false,
        ite_true, ite_false, Bool.false_eq_true, reduceCtorEq]
      · intro f hf
        simp only [registryFilePaths, List.mem_cons, List.not_mem_nil, or_false] at hf
        rcases hf with rfl | rfl | rfl <;>
          simp only [restoreLoop, opCopy, hrest1, hrest2, hrest3,
            lookupW_set_ne hnes11, lookupW_set_ne hnes12, lookupW_set_ne hnes13, lookupW_set_ne hnes21, lookupW_set_ne hnes22, lookupW_set_ne hnes23, lookupW_set_ne hnes31, lookupW_set_ne hnes32, lookupW_set_ne hnes33, lookupW_set_ne hbb12, lookupW_set_ne hbb13, lookupW_set_ne hbb21, lookupW_set_ne hbb23, lookupW_set_ne hbb31, lookupW_set_ne hbb32,
            pathExistsW_set_ne hne11 hpre11, pathExistsW_set_ne hne12 hpre12, pathExistsW_set_ne hne13 hpre13, lookupW_set_ne hne11, lookupW_set_ne hne12, lookupW_set_ne hne13, pathExistsW_set_ne hne21 hpre21, pathExistsW_set_ne hne22 hpre22, pathExistsW_set_ne hne23 hpre23, lookupW_set_ne hne21, lookupW_set_ne hne22, lookupW_set_ne hne23, pathExistsW_set_ne hne31 hpre31, pathExistsW_set_ne hne32 hpre32, pathExistsW_set_ne hne33 hpre33, lookupW_set_ne hne31, lookupW_set_ne hne32, lookupW_set_ne hne33,
            lookupW_set_self, e1, e2, e3,
            lookupW_set_ne hff12, lookupW_set_ne hff13, lookupW_set_ne hff21, lookupW_set_ne hff23, lookupW_set_ne hff31, lookupW_set_ne hff32,
            lookupW_set_ne hne11, lookupW_set_ne hne12, lookupW_set_ne hne13, lookupW_set_ne hne21, lookupW_set_ne hne22, lookupW_set_ne hne23, lookupW_set_ne hne31, lookupW_set_ne hne32, lookupW_set_ne hne33,
            Option.isSome_some, Option.isSome_none, eq_self_iff_true, if_true, if_false,
        ite_true, ite_false, Bool.false_eq_true, reduceCtorEq]
      | some d3 =>
      simp only [backupRegistryFilesM, registryFilePaths, backupLoop, opEnsure, opCopy,
        hra1, hra2, hra3, hpw1, hpw2, hpw3, e1, e2, e3,
        pathExistsW_set_ne hne11 hpre11, pathExistsW_set_ne hne12 hpre12, pathExistsW_set_ne hne13 hpre13, lookupW_set_ne hne11, lookupW_set_ne hne12, lookupW_set_ne hne13, pathExistsW_set_ne hne21 hpre21, pathExistsW_set_ne hne22 hpre22, pathExistsW_set_ne hne23 hpre23, lookupW_set_ne hne21, lookupW_set_ne hne22, lookupW_set_ne hne23, pathExistsW_set_ne hne31 hpre31, pathExistsW_set_ne hne32 hpre32, pathExistsW_set_ne hne33 hpre33, lookupW_set_ne hne31, lookupW_set_ne hne32, lookupW_set_ne hne33,
        lookupW_set_self,
        Option.isSome_some, Option.isSome_none, eq_self_iff_true, if_true, if_false,
        ite_true, ite_false, Bool.false_eq_true, reduceCtorEq] at hbk
      rw [Except.ok.injEq, Prod.mk.injEq] at hbk
      obtain ⟨rfl, rfl⟩ := hbk
      refine ⟨?_, ?_⟩
      · simp only [restoreLoop, opCopy, hrest1, hrest2, hrest3,
          lookupW_set_ne hnes11, lookupW_set_ne hnes12, lookupW_set_ne hnes13, lookupW_set_ne hnes21, lookupW_set_ne hnes22, lookupW_set_ne hnes23, lookupW_set_ne hnes31, lookupW_set_ne hnes32, lookupW_set_ne hnes33, lookupW_set_ne hbb12, lookupW_set_ne hbb13, lookupW_set_ne hbb21, lookupW_set_ne hbb23, lookupW_set_ne hbb31, lookupW_set_ne hbb32,
          lookupW_set_self,
          Option.isSome_some, Option.isSome_none, eq_self_iff_true, if_true, if_false,
        ite_true, ite_false, Bool.false_eq_true, reduceCtorEq]
      · intro f hf
        simp only [registryFilePaths, List.mem_cons, List.not_mem_nil, or_false] at hf
        rcases hf with rfl | rfl | rfl <;>
          simp only [restoreLoop, opCopy, hrest1, hrest2, hrest3,
            lookupW_set_ne hnes11, lookupW_set_ne hnes12, lookupW_set_ne hnes13, lookupW_set_ne hnes21, lookupW_set_ne hnes22, lookupW_set_ne hnes23, lookupW_set_ne hnes31, lookupW_set_ne hnes32, lookupW_set_ne hnes33, lookupW_set_ne hbb12, lookupW_set_ne hbb13, lookupW_set_ne hbb21, lookupW_set_ne hbb23, lookupW_set_ne hbb31, lookupW_set_ne hbb32,
            pathExistsW_set_ne hne11 hpre11, pathExistsW_set_ne hne12 hpre12, pathExistsW_set_ne hne13 hpre13, lookupW_set_ne hne11, lookupW_set_ne hne12, lookupW_set_ne hne13, pathExistsW_set_ne hne21 hpre21, pathExistsW_set_ne hne22 hpre22, pathExistsW_set_ne hne23 hpre23, lookupW_set_ne hne21, lookupW_set_ne hne22, lookupW_set_ne hne23, pathExistsW_set_ne hne31 hpre31, pathExistsW_set_ne hne32 hpre32, pathExistsW_set_ne hne33 hpre33, lookupW_set_ne hne31, lookupW_set_ne hne32, lookupW_set_ne hne33,
            lookupW_set_self, e1, e2, e3,
            lookupW_set_ne hff12, lookupW_set_ne hff13, lookupW_set_ne hff21, lookupW_set_ne hff23, lookupW_set_ne hff31, lookupW_set_ne hff32,
            lookupW_set_ne hne11, lookupW_set_ne hne12, lookupW_set_ne hne13, lookupW_set_ne hne21, lookupW_set_ne hne22, lookupW_set_ne hne23, lookupW_set_ne hne31, lookupW_set_ne hne32, lookupW_set_ne hne33,
            Option.isSome_some, Option.isSome_none, eq_self_iff_true, if_true, if_false,
        ite_true, ite_false, Bool.false_eq_true, reduceCtorEq]
    | some d2 =>
      cases e3 : lookupW w (pjoin (pjoin (pjoin pp "src".toList) "prompts".toList) "index.ts".toList) with
      | none =>
      simp only [backupRegistryFilesM, registryFilePaths, backupLoop, opEnsure, opCopy,
        hra1, hra2, hra3, hpw1, hpw2, hpw3, e1, e2, e3,
        pathExistsW_set_ne hne11 hpre11, pathExistsW_set_ne hne12 hpre12, pathExistsW_set_ne hne13 hpre13, lookupW_set_ne hne11, lookupW_set_ne hne12, lookupW_set_ne hne13, pathExistsW_set_ne hne21 hpre21, pathExistsW_set_ne hne22 hpre22, pathExistsW_set_ne hne23 hpre23, lookupW_set_ne hne21, lookupW_set_ne hne22, lookupW_set_ne hne23, pathExistsW_set_ne hne31 hpre31, pathExistsW_set_ne hne32 hpre32, pathExistsW_set_ne hne33 hpre33, lookupW_set_ne hne31, lookupW_set_ne hne32, lookupW_set_ne hne33,
        lookupW_set_self,
        Option.isSome_some, Option.isSome_none, eq_self_iff_true, if_true, if_false,
        ite_true, ite_false, Bool.false_eq_true, reduceCtorEq] at hbk
      rw [Except.ok.injEq, Prod.mk.injEq] at hbk
      obtain ⟨rfl, rfl⟩ := hbk
      refine ⟨?_, ?_⟩
      · simp only [restoreLoop, opCopy, hrest1, hrest2, hrest3,
          lookupW_set_ne hnes11, lookupW_set_ne hnes12, lookupW_set_ne hnes13, lookupW_set_ne hnes21, lookupW_set_ne hnes22, lookupW_set_ne hnes23, lookupW_set_ne hnes31, lookupW_set_ne hnes32, lookupW_set_ne hnes33, lookupW_set_ne hbb12, lookupW_set_ne hbb13, lookupW_set_ne hbb21, lookupW_set_ne hbb23, lookupW_set_ne hbb31, lookupW_set_ne hbb32,
          lookupW_set_self,
          Option.isSome_some, Option.isSome_none, eq_self_iff_true, if_true, if_false,
        ite_true, ite_false, Bool.false_eq_true, reduceCtorEq]
      · intro f hf
        simp only [registryFilePaths, List.mem_cons, List.not_mem_nil, or_false] at hf
        rcases hf with rfl | rfl | rfl <;>
          simp only [restoreLoop, opCopy, hrest1, hrest2, hrest3,
            lookupW_set_ne hnes11, lookupW_set_ne hnes12, lookupW_set_ne hnes13, lookupW_set_ne hnes21, lookupW_set_ne hnes22, lookupW_set_ne hnes23, lookupW_set_ne hnes31, lookupW_set_ne hnes32, lookupW_set_ne hnes33, lookupW_set_ne hbb12, lookupW_set_ne hbb13, lookupW_set_ne hbb21, lookupW_set_ne hbb23, lookupW_set_ne hbb31, lookupW_set_ne hbb32,
            pathExistsW_set_ne hne11 hpre11, pathExistsW_set_ne hne12 hpre12, pathExistsW_set_ne hne13 hpre13, lookupW_set_ne hne11, lookupW_set_ne hne12, lookupW_set_ne hne13, pathExistsW_set_ne hne21 hpre21, pathExistsW_set_ne hne22 hpre22, pathExistsW_set_ne hne23 hpre23, lookupW_set_ne hne21, lookupW_set_ne hne22, lookupW_set_ne hne23, pathExistsW_set_ne hne31 hpre31, pathExistsW_set_ne hne32 hpre32, pathExistsW_set_ne hne33 hpre33, lookupW_set_ne hne31, lookupW_set_ne hne32, lookupW_set_ne hne33,
            lookupW_set_self, e1, e2, e3,
            lookupW_set_ne hff12, lookupW_set_ne hff13, lookupW_set_ne hff21, lookupW_set_ne hff23, lookupW_set_ne hff31, lookupW_set_ne hff32,
            lookupW_set_ne hne11, lookupW_set_ne hne12, lookupW_set_ne hne13, lookupW_set_ne hne21, lookupW_set_ne hne22, lookupW_set_ne hne23, lookupW_set_ne hne31, lookupW_set_ne hne32, lookupW_set_ne hne33,
            Option.isSome_some, Option.isSome_none, eq_self_iff_true, if_true, if_false,
        ite_true, ite_false, Bool.false_eq_true, reduceCtorEq]
      | some d3 =>
      simp only [backupRegistryFilesM, registryFilePaths, backupLoop, opEnsure, opCopy,
        hra1, hra2, hra3, hpw1, hpw2, hpw3, e1, e2, e3,
        pathExistsW_set_ne hne11 hpre11, pathExistsW_set_ne hne12 hpre12, pathExistsW_set_ne hne13 hpre13, lookupW_set_ne hne11, lookupW_set_ne hne12, lookupW_set_ne hne13, pathExistsW_set_ne hne21 hpre21, pathExistsW_set_ne hne22 hpre22, pathExistsW_set_ne hne23 hpre23, lookupW_set_ne hne21, lookupW_set_ne hne22, lookupW_set_ne hne23, pathExistsW_set_ne hne31 hpre31, pathExistsW_set_ne hne32 hpre32, pathExistsW_set_ne hne33 hpre33, lookupW_set_ne hne31, lookupW_set_ne hne32, lookupW_set_ne hne33,
        lookupW_set_self,
        Option.isSome_some, Option.isSome_none, eq_self_iff_true, if_true, if_false,
        ite_true, ite_false, Bool.false_eq_true, reduceCtorEq] at hbk
      rw [Except.ok.injEq, Prod.mk.injEq] at hbk
      obtain ⟨rfl, rfl⟩ := hbk
      refine ⟨?_, ?_⟩
      · simp only [restoreLoop, opCopy, hrest1, hrest2, hrest3,
          lookupW_set_ne hnes11, lookupW_set_ne hnes12, lookupW_set_ne hnes13, lookupW_set_ne hnes21, lookupW_set_ne hnes22, lookupW_set_ne hnes23, lookupW_set_ne hnes31, lookupW_set_ne hnes32, lookupW_set_ne hnes33, lookupW_set_ne hbb12, lookupW_set_ne hbb13, lookupW_set_ne hbb21, lookupW_set_ne hbb23, lookupW_set_ne hbb31, lookupW_set_ne hbb32,
          lookupW_set_self,
          Option.isSome_some, Option.isSome_none, eq_self_iff_true, if_true, if_false,
        ite_true, ite_false, Bool.false_eq_true, reduceCtorEq]
      · intro f hf
        simp only [registryFilePaths, List.mem_cons, List.not_mem_nil, or_false] at hf
        rcases hf with rfl | rfl | rfl <;>
          simp only [restoreLoop, opCopy, hrest1, hrest2, hrest3,
            lookupW_set_ne hnes11, lookupW_set_ne hnes12, lookupW_set_ne hnes13, lookupW_set_ne hnes21, lookupW_set_ne hnes22, lookupW_set_ne hnes23, lookupW_set_ne hnes31, lookupW_set_ne hnes32, lookupW_set_ne hnes33, lookupW_set_ne hbb12, lookupW_set_ne hbb13, lookupW_set_ne hbb21, lookupW_set_ne hbb23, lookupW_set_ne hbb31, lookupW_set_ne hbb32,
            pathExistsW_set_ne hne11 hpre11, pathExistsW_set_ne hne12 hpre12, pathExistsW_set_ne hne13 hpre13, lookupW_set_ne hne11, lookupW_set_ne hne12, lookupW_set_ne hne13, pathExistsW_set_ne hne21 hpre21, pathExistsW_set_ne hne22 hpre22, pathExistsW_set_ne hne23 hpre23, lookupW_set_ne hne21, lookupW_set_ne hne22, lookupW_set_ne hne23, pathExistsW_set_ne hne31 hpre31, pathExistsW_set_ne hne32 hpre32, pathExistsW_set_ne hne33 hpre33, lookupW_set_ne hne31, lookupW_set_ne hne32, lookupW_set_ne hne33,
            lookupW_set_self, e1, e2, e3,
            lookupW_set_ne hff12, lookupW_set_ne hff13, lookupW_set_ne hff21, lookupW_set_ne hff23, lookupW_set_ne hff31, lookupW_set_ne hff32,
            lookupW_set_ne hne11, lookupW_set_ne hne12, lookupW_set_ne hne13, lookupW_set_ne hne21, lookupW_set_ne hne22, lookupW_set_ne hne23, lookupW_set_ne hne31, lookupW_set_ne hne32, lookupW_set_ne hne33,
            Option.isSome_some, Option.isSome_none, eq_self_iff_true, if_true, if_false,
        ite_true, ite_false, Bool.false_eq_true, reduceCtorEq]

def c5w : World :=
  [(pjoin (pjoin (pjoin "/p".toList "src".toList) "tools".toList) "index.ts".toList,
      FileData.text "T".toList),
    (pjoin (pjoin (pjoin "/p".toList "src".toList) "resources".toList) "index.ts".toList,
      FileData.text "R".toList),
    (pjoin (pjoin (pjoin "/p".toList "src".toList) "prompts".toList) "index.ts".toList,
      FileData.text "P".toList)]

def c5ctx : ProjectContext :=
  ⟨true, "/p".toList, pjoin "/p".toList "src".toList, "p".toList, none⟩

def c5paths : List (List Char) :=
  ["/p/.mcp-backups/t0/tools/index.ts".toList,
    "/p/.mcp-backups/t0/resources/index.ts".toList,
    "/p/.mcp-backups/t0/prompts/index.ts".toList]

def c5st1 : St :=
  ⟨("/p/.mcp-backups/t0/prompts/index.ts".toList, FileData.text "P".toList)
      :: ("/p/.mcp-backups/t0/resources/index.ts".toList, FileData.text "R".toList)
      :: ("/p/.mcp-backups/t0/tools/index.ts".toList, FileData.text "T".toList)
      :: c5w, 7⟩

/-- Witness for c5_backup_restore_roundtrip on a concrete three-file
project. -/
theorem c5_witness :
    (restoreLoop (fun _ => true) c5ctx c5paths c5st1).2 = true ∧
    ∀ f ∈ registryFilePaths c5ctx,
      lookupW ((restoreLoop (fun _ => true) c5ctx c5paths c5st1).1).world f
        = lookupW c5w f :=
  c5_backup_restore_roundtrip c5ctx "t0".toList c5w rfl (by decide) (by decide)
    c5paths c5st1 (by rfl)

theorem jsSubstitute_id {m b a cp r : List Char} (h : ('$' : Char) ∉ r) :
    jsSubstitute m b a cp r = r := by
  induction r with
  | nil => rfl
  | cons c rest ih =>
    have hc : c ≠ '$' := by
      intro he
      exact h (he ▸ List.mem_cons_self c rest)
    have hrest : ('$' : Char) ∉ rest := fun hm => h (List.mem_cons_of_mem c hm)
    cases rest with
    | nil => simp [jsSubstitute]
    | cons d r2 =>
      rw [jsSubstitute]
      rw [if_neg hc, ih hrest]
      intro r h1 h2 h3
      exact hc h1

theorem importStep_shape (imp c : List Char) :
    importStep imp c = c ∨
    ∃ n, importStep imp c = c.take n ++ '\n' :: imp ++ c.drop n := by
  unfold importStep
  by_cases h1 : containsSub imp c = true
  · left
    rw [if_pos h1]
  · rw [if_neg h1]
    cases h2 : (importMatches c).getLast? with
    | none => left; rfl
    | some m =>
      right
      exact ⟨_, rfl⟩

theorem sublist_insert_middle (A I B : List Char) :
    List.Sublist (A ++ B) (A ++ I ++ B) := by
  rw [List.append_assoc]
  exact List.Sublist.append (List.Sublist.refl A) (List.sublist_append_right I B)

theorem importStep_sublist (imp c : List Char) :
    List.Sublist c (importStep imp c) := by
  rcases importStep_shape imp c with h | ⟨n, h⟩
  · rw [h]
  · rw [h]
    have hs := sublist_insert_middle (c.take n) ('\n' :: imp) (c.drop n)
    rw [List.take_append_drop] at hs
    simpa using hs

theorem findInit_decomp {mname c : List Char} {st sl bl : Nat}
    (h : findInit mname c = some (st, sl, bl)) :
    c = c.take st ++ ((c.drop st).take sl
      ++ (((c.drop (st + sl)).take bl) ++ '\x7d' :: c.drop (st + sl + bl + 1))) := by
  obtain ⟨hsig, hbr⟩ := findInitAux_spec h
  have h1 : c = c.take st ++ c.drop st := (List.take_append_drop st c).symm
  have h2 : c.drop st = (c.drop st).take sl ++ c.drop (st + sl) := by
    have := (List.take_append_drop sl (c.drop st)).symm
    rwa [List.drop_drop] at this
  have hocc := subFind_some_occ hbr
  rcases occB_iff.mp hocc with ⟨t, ht⟩
  have h3 : c.drop (st + sl) = (c.drop (st + sl)).take bl ++ '\x7d' :: t := by
    have := (List.take_append_drop bl (c.drop (st + sl))).symm
    rw [ht] at this
    exact this
  have h4 : c.drop (st + sl + bl + 1) = t := by
    have hd : (c.drop (st + sl)).drop bl = c.drop (st + sl + bl) := by
      rw [List.drop_drop]
    rw [hd] at ht
    rw [← List.drop_drop, ht]
    rfl
  rw [h4]
  calc c = c.take st ++ c.drop st := h1
  _ = c.take st ++ ((c.drop st).take sl ++ c.drop (st + sl)) := by rw [← h2]
  _ = c.take st ++ ((c.drop st).take sl
      ++ ((c.drop (st + sl)).take bl ++ '\x7d' :: t)) := by rw [← h3]

theorem mem_trimEndL {x : Char} {s : List Char} (h : x ∈ trimEndL s) : x ∈ s := by
  unfold trimEndL at h
  rw [List.mem_reverse] at h
  exact List.mem_reverse.mp ((List.dropWhile_sublist isWs).subset h)

theorem regNewBody_shape_all (setPfx reg body : List Char) :
    (∃ le, regNewBody setPfx reg body = body.take le ++ nl4 ++ reg ++ body.drop le) ∨
    regNewBody setPfx reg body = trimEndL body ++ nl4 ++ reg ++ nl4 := by
  unfold regNewBody
  cases hsl : subFindLast setPfx body with
  | none => right; rfl
  | some lr => left; exact ⟨_, rfl⟩

theorem regNewBody_shape_some (setPfx reg body : List Char)
    (h : (subFindLast setPfx body).isSome = true) :
    ∃ le, regNewBody setPfx reg body = body.take le ++ nl4 ++ reg ++ body.drop le := by
  obtain ⟨lr, hlr⟩ := Option.isSome_iff_exists.mp h
  unfold regNewBody
  rw [hlr]
  exact ⟨_, rfl⟩

theorem regNewBody_sublist (setPfx reg body : List Char)
    (h : (subFindLast setPfx body).isSome = true) :
    List.Sublist body (regNewBody setPfx reg body) := by
  obtain ⟨le, he⟩ := regNewBody_shape_some setPfx reg body h
  rw [he]
  have hs := sublist_insert_middle (body.take le) (nl4 ++ reg) (body.drop le)
  rw [List.take_append_drop] at hs
  simpa using hs

theorem mem_regNewBody {x : Char} {setPfx reg body : List Char}
    (h : x ∈ regNewBody setPfx reg body) : x ∈ nl4 ∨ x ∈ reg ∨ x ∈ body := by
  rcases regNewBody_shape_all setPfx reg body with ⟨le, he⟩ | he <;> rw [he] at h <;>
    simp only [List.mem_append] at h
  · rcases h with ((h | h) | h) | h
    · exact Or.inr (Or.inr (List.mem_of_mem_take h))
    · exact Or.inl h
    · exact Or.inr (Or.inl h)
    · exact Or.inr (Or.inr (List.mem_of_mem_drop h))
  · rcases h with ((h | h) | h) | h
    · exact Or.inr (Or.inr (mem_trimEndL h))
    · exact Or.inl h
    · exact Or.inr (Or.inl h)
    · exact Or.inl h

theorem dollar_not_mem_canonSig {mname : List Char} (h : ('$' : Char) ∉ mname) :
    ('$' : Char) ∉ canonSig mname := by
  unfold canonSig
  intro hx
  simp only [List.mem_append] at hx
  rcases hx with (((hx | hx) | hx) | hx) | hx
  · exact absurd hx (by decide)
  · exact absurd hx (by decide)
  · exact h hx
  · exact absurd hx (by decide)
  · exact absurd hx (by decide)

theorem dollar_not_mem_regNewBody {setPfx reg body : List Char}
    (hreg : ('$' : Char) ∉ reg) (hbody : ('$' : Char) ∉ body) :
    ('$' : Char) ∉ regNewBody setPfx reg body := by
  intro hx
  rcases mem_regNewBody hx with h | h | h
  · exact absurd h (by decide)
  · exact hreg h
  · exact hbody h

theorem dollar_not_mem_repl {mname setPfx reg body : List Char}
    (hmn : ('$' : Char) ∉ mname) (hreg : ('$' : Char) ∉ reg)
    (hbody : ('$' : Char) ∉ body) :
    ('$' : Char) ∉ canonSig mname ++ regNewBody setPfx reg body ++ ['\x7d'] := by
  intro hx
  simp only [List.mem_append] at hx
  rcases hx with (hx | hx) | hx
  · exact dollar_not_mem_canonSig hmn hx
  · exact dollar_not_mem_regNewBody hreg hbody hx
  · exact absurd hx (by decide)

theorem regStep_sublist (mname setPfx reg c : List Char) (st sl bl : Nat)
    (hfi : findInit mname c = some (st, sl, bl))
    (hsig : (c.drop st).take sl = canonSig mname)
    (hset : (subFindLast setPfx ((c.drop (st + sl)).take bl)).isSome = true)
    (hmn : ('$' : Char) ∉ mname) (hreg : ('$' : Char) ∉ reg)
    (hbody : ('$' : Char) ∉ (c.drop (st + sl)).take bl) :
    List.Sublist c (regStep mname setPfx reg c) := by
  unfold regStep
  simp only [hfi]
  by_cases hcr : containsSub reg ((c.drop (st + sl)).take bl) = true
  · rw [if_pos hcr]
  · rw [if_neg hcr]
    have hdollar := @dollar_not_mem_repl mname setPfx reg
      ((c.drop (st + sl)).take bl) hmn hreg hbody
    rw [jsSubstitute_id hdollar]
    have hd := findInit_decomp hfi
    rw [hsig] at hd
    have hBNB := regNewBody_sublist setPfx reg ((c.drop (st + sl)).take bl) hset
    have hsub := List.Sublist.append (List.Sublist.refl (c.take st))
      (List.Sublist.append (List.Sublist.refl (canonSig mname))
        (List.Sublist.append hBNB
          (List.Sublist.refl ('\x7d' :: c.drop (st + sl + bl + 1)))))
    rw [← hd] at hsub
    have hidx : st + (sl + bl + 1) = st + sl + bl + 1 := by omega
    rw [hidx]
    simpa [List.append_assoc] using hsub

def c10file : List Char := "private initializeTools(): void \x7b\n\n\n\x7d".toList

/-- C10 counterexample: the auto-discovery registry update is not
insertion-only. On a registry file whose initialize-method body consists of
whitespace and holds no setter call, the no-existing-call branch rebuilds the
body as trimEnd(body) plus the new registration: the three newline characters
of the original body are deleted, so the original file content is not a
subsequence of the written-back content. -/
theorem c10_counterexample :
    ¬ List.Sublist c10file (updateToolContent c3imp c3reg c10file) := by decide

/-- C10 (amended): the auto-discovery registry update only inserts text —
the original content is a subsequence of the result — provided the
registration step takes the existing-call branch: when the initialize-method
match on the import-adjusted content captures a body that already holds a
setter call (subFindLast of the setter prefix is some), the matched signature
text is the canonical spelling rebuilt by the replacement template, and
neither the method name, the registration line nor the captured body holds a
dollar character (so GetSubstitution is the identity on the replacement). In
the remaining branch the trimEnd call deletes trailing whitespace of the
body, refuting the unconditional claim (c10_counterexample). -/
theorem c10_amended (mname setPfx imp reg c : List Char) (st sl bl : Nat)
    (hfi : findInit mname (importStep imp c) = some (st, sl, bl))
    (hsig : ((importStep imp c).drop st).take sl = canonSig mname)
    (hset : (subFindLast setPfx (((importStep imp c).drop (st + sl)).take bl)).isSome
      = true)
    (hmn : ('$' : Char) ∉ mname) (hreg : ('$' : Char) ∉ reg)
    (hbody : ('$' : Char) ∉ ((importStep imp c).drop (st + sl)).take bl) :
    List.Sublist c (autoPatch mname setPfx imp reg c) :=
  List.Sublist.trans (importStep_sublist imp c)
    (regStep_sublist mname setPfx reg (importStep imp c) st sl bl hfi hsig hset hmn
      hreg hbody)

def c10w : List Char :=
  "private initializeTools(): void \x7b\n    this.tools.set('x', y);\n  \x7d".toList

/-- Witness for c10_amended: on a registry file with one existing setter call
the hypotheses hold concretely and the original content is a subsequence of
the patched content. -/
theorem c10_amended_witness :
    findInit mnameTools (importStep c3imp c10w) = some (0, 33, 31) ∧
    List.Sublist c10w (autoPatch mnameTools setTools c3imp c3reg c10w) :=
  ⟨by decide,
    c10_amended mnameTools setTools c3imp c3reg c10w 0 33 31 (by decide) (by decide)
      (by decide) (by decide) (by decide) (by decide)⟩

/-- Oracle that fails exactly the i-th fallible write-type primitive. -/
def failAt (i : Nat) : Oracle := fun j => decide (j ≠ i)

def c2pkg : PkgJson := ⟨some "proj".toList, [sdkDep], []⟩

/-- A valid project world: manifest with the sdk dependency, server entry
point, core server module and the three registry index files, whose
contents stay symbolic. -/
def c2world (T R P S1 S2 : List Char) : World :=
  [(pjoin "/p".toList "package.json".toList, .pkg c2pkg),
   (pjoin "/p/src".toList "server.ts".toList, .text S1),
   (pjoin "/p/src".toList "core/mcp-server.ts".toList, .text S2),
   (pjoin "/p/src".toList "tools/index.ts".toList, .text T),
   (pjoin "/p/src".toList "resources/index.ts".toList, .text R),
   (pjoin "/p/src".toList "prompts/index.ts".toList, .text P)]

def c2iuc : List Char := "export * from './alpha-tool.js';".toList

def bTp : List Char := "/p/.mcp-backups/t1/tools/index.ts".toList

def bRp : List Char := "/p/.mcp-backups/t1/resources/index.ts".toList

def bPp : List Char := "/p/.mcp-backups/t1/prompts/index.ts".toList

def tIp : List Char := "/p/src/tools/index.ts".toList

def rIp : List Char := "/p/src/resources/index.ts".toList

def pIp : List Char := "/p/src/prompts/index.ts".toList

def compP : List Char := "/p/src/tools/alpha-tool.ts".toList

set_option maxHeartbeats 8000000

/-- C2: rollback on patch failure. On a valid project whose three registry
files hold arbitrary contents T, R, P, a run of addComponent in which the
backup succeeds (the snapshot holds the three registry files) and exactly
one later write-type primitive fails — the component-directory ensureDir
(i = 7), the component-file write (i = 8), the index write (i = 9) or the
registry-patch write (i = 10) — ends with the error re-raised, and every
registry file tracked by the snapshot is restored to its pre-run content;
when the failure comes after the component-file write (8 < i), the new
component file itself is still present with the template content. -/
theorem c2_rollback (T R P S1 S2 tc ai ain ar : List Char) (i : Nat)
    (hi1 : 7 ≤ i) (hi2 : i ≤ 10) :
    ∃ stE,
      addComponentM (failAt i) .tool "alpha".toList ⟨tc, c2iuc, [⟨.tool, ai, ain, ar⟩]⟩
          "/p".toList "t1".toList ⟨c2world T R P S1 S2, 0⟩
        = .error (.ioFail, stE) ∧
      lookupW stE.world (pjoin "/p/src".toList "tools/index.ts".toList)
        = some (.text T) ∧
      lookupW stE.world (pjoin "/p/src".toList "resources/index.ts".toList)
        = some (.text R) ∧
      lookupW stE.world (pjoin "/p/src".toList "prompts/index.ts".toList)
        = some (.text P) ∧
      (8 < i → lookupW stE.world (pjoin "/p/src/tools".toList "alpha-tool.ts".toList)
        = some (.text tc)) := by
  have hc : i = 7 ∨ i = 8 ∨ i = 9 ∨ i = 10 := by omega
  rcases hc with rfl | rfl | rfl | rfl
  · exact ⟨⟨(pIp, .text P) :: (rIp, .text R) :: (tIp, .text T)
        :: (bPp, .text P) :: (bRp, .text R) :: (bTp, .text T)
        :: c2world T R P S1 S2, 11⟩,
      rfl, rfl, rfl, rfl, fun h => absurd h (by decide)⟩
  · exact ⟨⟨(pIp, .text P) :: (rIp, .text R) :: (tIp, .text T)
        :: (bPp, .text P) :: (bRp, .text R) :: (bTp, .text T)
        :: c2world T R P S1 S2, 12⟩,
      rfl, rfl, rfl, rfl, fun h => absurd h (by decide)⟩
  · exact ⟨⟨(pIp, .text P) :: (rIp, .text R) :: (tIp, .text T)
        :: (compP, .text tc)
        :: (bPp, .text P) :: (bRp, .text R) :: (bTp, .text T)
        :: c2world T R P S1 S2, 13⟩,
      rfl, rfl, rfl, rfl, fun _ => rfl⟩
  · exact ⟨⟨(pIp, .text P) :: (rIp, .text R) :: (tIp, .text T)
        :: (tIp, .text (trimL T ++ '\n' :: c2iuc ++ ['\n']))
        :: (compP, .text tc)
        :: (bPp, .text P) :: (bRp, .text R) :: (bTp, .text T)
        :: c2world T R P S1 S2, 14⟩,
      rfl, rfl, rfl, rfl, fun _ => rfl⟩

set_option maxHeartbeats 1000000

/-- Witness for c2_rollback: the registry-patch write (index 10) fails on a
concrete world; the registry files come back to their pre-run contents and
the component file stays. -/
theorem c2_rollback_witness :
    7 ≤ 10 ∧ 10 ≤ 10 ∧
    ∃ stE,
      addComponentM (failAt 10) .tool "alpha".toList
          ⟨"TC".toList, c2iuc, [⟨.tool, "AI".toList, "AIN".toList, "AR".toList⟩]⟩
          "/p".toList "t1".toList
          ⟨c2world "T".toList "R".toList "P".toList "S1".toList "S2".toList, 0⟩
        = .error (.ioFail, stE) ∧
      lookupW stE.world (pjoin "/p/src".toList "tools/index.ts".toList)
        = some (.text "T".toList) ∧
      lookupW stE.world (pjoin "/p/src".toList "resources/index.ts".toList)
        = some (.text "R".toList) ∧
      lookupW stE.world (pjoin "/p/src".toList "prompts/index.ts".toList)
        = some (.text "P".toList) ∧
      (8 < 10 → lookupW stE.world (pjoin "/p/src/tools".toList "alpha-tool.ts".toList)
        = some (.text "TC".toList)) :=
  ⟨by decide, by decide,
    c2_rollback "T".toList "R".toList "P".toList "S1".toList "S2".toList "TC".toList
      "AI".toList "AIN".toList "AR".toList 10 (by decide) (by decide)⟩

def c1file : List Char :=
  "private initializeTools(): void \x7b\n    this.tools.set('a', f);\n  \x7d".toList

def c1reg : List Char := "this.tools.set('b', () => \x7b\x7d);".toList

def c1imp : List Char := "import \x7b B \x7d from './b.js';".toList

/-- C1 counterexample: registry patching is not idempotent. When the
registration line itself holds a closing brace (an arrow-function body), the
second application captures a method body truncated at that brace, does not
find the full registration line inside it, and inserts a duplicate. -/
theorem c1_counterexample :
    updateToolContent c1imp c1reg (updateToolContent c1imp c1reg c1file)
      ≠ updateToolContent c1imp c1reg c1file := by decide

theorem findInitAux_eq_of (mname : List Char) :
    ∀ (st : Nat) (c : List Char) (sl bl : Nat),
      (∀ i, i < st → sigMatchLen mname (c.drop i) = none) →
      sigMatchLen mname (c.drop st) = some sl →
      subFind ['\x7d'] (c.drop (st + sl)) = some bl →
      findInit mname c = some (st, sl, bl) := by
  intro st
  induction st with
  | zero =>
    intro c sl bl hno hsig hbr
    cases c with
    | nil =>
      have hnil : sigMatchLen mname (List.drop 0 ([] : List Char)) = none := rfl
      rw [hnil] at hsig
      cases hsig
    | cons a rest =>
      rw [List.drop_zero] at hsig
      have hbr2 : subFind ['\x7d'] ((a :: rest).drop sl) = some bl := by
        simpa using hbr
      unfold findInit
      simp only [findInitAux, hsig, hbr2]
  | succ st ih =>
    intro c sl bl hno hsig hbr
    cases c with
    | nil =>
      have hnil : sigMatchLen mname (List.drop (st + 1) ([] : List Char)) = none := rfl
      rw [hnil] at hsig
      cases hsig
    | cons a rest =>
      have h0 : sigMatchLen mname (a :: rest) = none := by
        have h := hno 0 (Nat.succ_pos st)
        simpa using h
      have hno2 : ∀ i, i < st → sigMatchLen mname (rest.drop i) = none := by
        intro i hi
        have h := hno (i + 1) (by omega)
        simpa [List.drop_succ_cons] using h
      have hsig2 : sigMatchLen mname (rest.drop st) = some sl := by
        simpa [List.drop_succ_cons] using hsig
      have hbr2 : subFind ['\x7d'] (rest.drop (st + sl)) = some bl := by
        have h := hbr
        rw [show st + 1 + sl = st + sl + 1 by omega] at h
        simpa [List.drop_succ_cons] using h
      have hres := ih rest sl bl hno2 hsig2 hbr2
      unfold findInit at hres ⊢
      simp only [findInitAux, h0, hres, Option.map_some']

/-- C1 (amended): registry patching is idempotent when the inserted material
keeps the text the second pass relies on intact: the first match captures a
body that already holds a setter call, the registration line holds no
closing brace and no dollar character (and the captured body no dollar),
after the first application the import line occurs in the result, and no
position before the match start gains a signature match. The counterexample
c1_counterexample shows the brace condition is needed; under these
conditions the second application is a no-op. -/
theorem c1_amended (imp reg c : List Char) (st sl bl : Nat)
    (hfi : findInit mnameTools (importStep imp c) = some (st, sl, bl))
    (hcr : containsSub reg (((importStep imp c).drop (st + sl)).take bl) = false)
    (hset : (subFindLast setTools (((importStep imp c).drop (st + sl)).take bl)).isSome
      = true)
    (hdreg : ('$' : Char) ∉ reg)
    (hdbody : ('$' : Char) ∉ ((importStep imp c).drop (st + sl)).take bl)
    (hbreg : ('\x7d' : Char) ∉ reg)
    (himp : containsSub imp (updateToolContent imp reg c) = true)
    (hno : ∀ i, i < st →
      sigMatchLen mnameTools ((updateToolContent imp reg c).drop i) = none) :
    updateToolContent imp reg (updateToolContent imp reg c)
      = updateToolContent imp reg c := by
  obtain ⟨hsig1, hbr1⟩ := findInitAux_spec hfi
  have hbody_br : ('\x7d' : Char) ∉ ((importStep imp c).drop (st + sl)).take bl := by
    intro hmem
    exact (no_char_in_take (fun i hi => subFind_min hbr1 i hi)) _ hmem rfl
  have hnb_br : ('\x7d' : Char)
      ∉ regNewBody setTools reg (((importStep imp c).drop (st + sl)).take bl) := by
    intro hmem
    rcases mem_regNewBody hmem with h | h | h
    · exact absurd h (by decide)
    · exact hbreg h
    · exact hbody_br h
  have hdollar := @dollar_not_mem_repl mnameTools setTools reg
    (((importStep imp c).drop (st + sl)).take bl) (by decide) hdreg hdbody
  have hshape : updateToolContent imp reg c
      = (importStep imp c).take st
        ++ (canonSig mnameTools
            ++ regNewBody setTools reg (((importStep imp c).drop (st + sl)).take bl)
            ++ ['\x7d'])
        ++ (importStep imp c).drop (st + sl + bl + 1) := by
    show regStep mnameTools setTools reg (importStep imp c) = _
    unfold regStep
    simp only [hfi]
    rw [if_neg (by simp [hcr])]
    rw [jsSubstitute_id hdollar]
    have hidx : st + (sl + bl + 1) = st + sl + bl + 1 := by omega
    rw [hidx]
  have hstle : st ≤ (importStep imp c).length := by
    by_contra hlt
    push_neg at hlt
    have hdropnil : (importStep imp c).drop st = [] :=
      List.drop_eq_nil_of_le (le_of_lt hlt)
    rw [hdropnil] at hsig1
    have hnil : sigMatchLen mnameTools ([] : List Char) = none := rfl
    rw [hnil] at hsig1
    cases hsig1
  have htklen : ((importStep imp c).take st).length = st := by
    rw [List.length_take]
    omega
  have hd1 : (updateToolContent imp reg c).drop st
      = canonSig mnameTools
        ++ (regNewBody setTools reg (((importStep imp c).drop (st + sl)).take bl)
            ++ '\x7d' :: (importStep imp c).drop (st + sl + bl + 1)) := by
    rw [hshape]
    have hassoc : (importStep imp c).take st
        ++ (canonSig mnameTools
            ++ regNewBody setTools reg (((importStep imp c).drop (st + sl)).take bl)
            ++ ['\x7d'])
        ++ (importStep imp c).drop (st + sl + bl + 1)
      = (importStep imp c).take st
        ++ (canonSig mnameTools
            ++ (regNewBody setTools reg (((importStep imp c).drop (st + sl)).take bl)
              ++ '\x7d' :: (importStep imp c).drop (st + sl + bl + 1))) := by
      simp [List.append_assoc]
    rw [hassoc]
    exact List.drop_left' htklen
  have hsigd : sigMatchLen mnameTools ((updateToolContent imp reg c).drop st)
      = some 33 := by
    rw [hd1]
    exact rfl
  have hd2 : (updateToolContent imp reg c).drop (st + 33)
      = regNewBody setTools reg (((importStep imp c).drop (st + sl)).take bl)
        ++ '\x7d' :: (importStep imp c).drop (st + sl + bl + 1) := by
    rw [hshape]
    have hassoc : (importStep imp c).take st
        ++ (canonSig mnameTools
            ++ regNewBody setTools reg (((importStep imp c).drop (st + sl)).take bl)
            ++ ['\x7d'])
        ++ (importStep imp c).drop (st + sl + bl + 1)
      = ((importStep imp c).take st ++ canonSig mnameTools)
        ++ (regNewBody setTools reg (((importStep imp c).drop (st + sl)).take bl)
            ++ '\x7d' :: (importStep imp c).drop (st + sl + bl + 1)) := by
      simp [List.append_assoc]
    rw [hassoc]
    have hlen2 : ((importStep imp c).take st ++ canonSig mnameTools).length = st + 33 := by
      rw [List.length_append, htklen]
      rfl
    exact List.drop_left' hlen2
  have hbrd : subFind ['\x7d'] ((updateToolContent imp reg c).drop (st + 33))
      = some (regNewBody setTools reg
          (((importStep imp c).drop (st + sl)).take bl)).length := by
    rw [hd2]
    apply subFind_eq_of
    · refine occB_iff.mpr ⟨(importStep imp c).drop (st + sl + bl + 1), ?_⟩
      rw [List.drop_left]
      rfl
    · intro m hm
      exact no_occ_char_of_not_mem hnb_br m hm
  have hfid : findInit mnameTools (updateToolContent imp reg c)
      = some (st, 33, (regNewBody setTools reg
          (((importStep imp c).drop (st + sl)).take bl)).length) :=
    findInitAux_eq_of mnameTools st (updateToolContent imp reg c) 33 _ hno hsigd hbrd
  have hbody2 : ((updateToolContent imp reg c).drop (st + 33)).take
        (regNewBody setTools reg (((importStep imp c).drop (st + sl)).take bl)).length
      = regNewBody setTools reg (((importStep imp c).drop (st + sl)).take bl) := by
    rw [hd2]
    exact List.take_left' rfl
  have hcr2 : containsSub reg (((updateToolContent imp reg c).drop (st + 33)).take
        (regNewBody setTools reg
          (((importStep imp c).drop (st + sl)).take bl)).length) = true := by
    rw [hbody2]
    obtain ⟨le, he⟩ := regNewBody_shape_some setTools reg
      (((importStep imp c).drop (st + sl)).take bl) hset
    rw [he]
    have hself : occB reg reg 0 = true := occB_iff.mpr ⟨[], by simp⟩
    exact containsSub_append_left (containsSub_append_right (containsSub_of_occ hself))
  have himpstep : importStep imp (updateToolContent imp reg c)
      = updateToolContent imp reg c := by
    unfold importStep
    rw [if_pos himp]
  show regStep mnameTools setTools reg (importStep imp (updateToolContent imp reg c))
    = updateToolContent imp reg c
  rw [himpstep]
  unfold regStep
  simp only [hfid]
  rw [if_pos hcr2]

def c1w : List Char :=
  ("import \x7b ATool \x7d from './a-tool.js';\n\nclass R \x7b\n  "
    ++ "private initializeTools(): void \x7b\n    this.tools.set('a', new ATool());\n  \x7d\n\x7d").toList

/-- Witness for c1_amended: on a registry file with an import line, a class
wrapper and one existing setter call, the hypotheses hold concretely and the
second application of the update changes nothing. -/
theorem c1_amended_witness :
    updateToolContent c3imp c3reg (updateToolContent c3imp c3reg c1w)
      = updateToolContent c3imp c3reg c1w :=
  c1_amended c3imp c3reg c1w 87 33 41 (by decide) (by decide) (by decide) (by decide)
    (by decide) (by decide) (by decide) (by decide)
